import Mathlib

/-!
Shallow embedding of the Dataset/FeatureSet/Task reconciliation layer of
`symbolic_features` (file `src/symbolic_features/data.py`), together with
theorems settling the frozen claims about it.

Modelling conventions:
* A pandas `DataFrame` read from a CSV is a list of column names plus rows;
  each row carries its integer index label and its cells.  A cell is either a
  string or a number (`select_dtypes([int, float])` keeps the all-numeric
  columns).
* A pandas string `Series` is a list of (index label, value) pairs; a label
  series may contain missing values (`NaN`), modelled by `Option String`.
* Boolean-array `.loc[mask]` filtering is positional, modelled by zipping the
  rows with the mask.
* Python exceptions that the code raises or catches are modelled by
  `Except SFError`.
* Python `re` regular expressions are embedded as an explicit AST with a
  fuel-driven backtracking matcher whose result ordering mirrors Python's
  leftmost, greedy backtracking search (first result = Python's match).
-/

/-- A cell of a dataframe: either a string value or a numeric value.
Numbers are modelled as integers (no claim computes on the numeric payload). -/
inductive Cell where
  | str : String → Cell
  | num : Int → Cell
deriving DecidableEq

/-- A pandas DataFrame: column names plus rows; each row is
(integer index label, cells aligned with `cols`). -/
structure DF where
  cols : List String
  rows : List (Nat × List Cell)
deriving DecidableEq

/-- A string-valued pandas Series (index label, value). -/
abbrev SSeries := List (Nat × String)

/-- A label Series (index label, value); `none` models pandas `NaN`. -/
abbrev LabSeries := List (Nat × Option String)

/-- Positional boolean-mask filtering, as in `df.loc[bool_ndarray]` /
`y.loc[bool_ndarray]` (pandas requires equal lengths; `zip` truncates at the
shorter list, theorems carry the length requirements where they matter). -/
def maskFilter (xs : List α) (m : List Bool) : List α :=
  (xs.zip m).filterMap fun p => if p.2 then some p.1 else none

/-- The string content of a cell; a numeric cell has no string content
(pandas `.str` accessors yield `NaN` on non-strings, which downstream
string tests treat as a failed match). -/
def Cell.strD : Cell → String
  | .str s => s
  | .num _ => ""

/-- Position of a column name (first occurrence), `none` when absent
(pandas raises `KeyError`; callers check). -/
def DF.colIdx (df : DF) (c : String) : Option Nat :=
  df.cols.findIdx? (fun n => n = c)

/-- The string value of row `r` in column position `li`. -/
def rowStr (r : Nat × List Cell) (li : Nat) : String :=
  (r.2.getD li (.str "")).strD

/-- `df.loc[bool_ndarray]`: keep the rows where the mask is `true`. -/
def DF.maskRows (df : DF) (m : List Bool) : DF :=
  ⟨df.cols, maskFilter df.rows m⟩

/-- Keep the columns (and the matching cells of every row) where the mask
is `true`. -/
def DF.selectCols (df : DF) (keep : List Bool) : DF :=
  ⟨maskFilter df.cols keep, df.rows.map fun r => (r.1, maskFilter r.2 keep)⟩

/-- `df.drop(columns=c)`: drop every column named `c`
(callers have already accessed the column, so it exists there). -/
def DF.dropCol (df : DF) (c : String) : DF :=
  df.selectCols (df.cols.map fun n => n ≠ c)

/-- The column `c` of `df` as a string Series (`df[c]` on a string column). -/
def DF.colStrD (df : DF) (c : String) : SSeries :=
  match df.colIdx c with
  | some li => df.rows.map fun r => (r.1, rowStr r li)
  | none => []

/-- `df.select_dtypes([int, float])`: keep the columns whose cells are all
numeric (the dtype a CSV column gets when every entry parses as a number). -/
def DF.selectNumeric (df : DF) : DF :=
  df.selectCols ((List.range df.cols.length).map fun i =>
    df.rows.all fun r => match r.2.getD i (.str "") with
      | .num _ => true
      | .str _ => false)

section RegexEngine

/-- Regular-expression AST for the patterns `data.py` compiles with Python's
`re` module.  `cls` is a character class, `grp` the (single) capture group. -/
inductive RE where
  | eps : RE
  | cls : (Char → Bool) → RE
  | cat : RE → RE → RE
  | alt : RE → RE → RE
  | star : RE → RE
  | grp : RE → RE

/-- Structural size of a regex, used to compute a sufficient matcher fuel. -/
def RE.size : RE → Nat
  | .eps => 1
  | .cls _ => 1
  | .cat a b => a.size + b.size + 1
  | .alt a b => a.size + b.size + 1
  | .star a => a.size + 1
  | .grp a => a.size + 1

/-- Backtracking matcher.  `reRuns fuel r s` returns, in Python's
backtracking priority order (greedy `star`, left `alt` first), the list of
(remaining suffix, group-1 capture) pairs for matches of `r` at the start of
`s`.  A `star` iteration must consume at least one character (Python's `re`
likewise never repeats an empty match).  Fuel decreases on every recursive
call so the definition is structural and kernel-reducible; callers pass
`(r.size + 1) * (s.length + 2)`, which exceeds the recursion depth (each
level descends either into a strict subterm or into a strictly shorter
string through a `star`). -/
def reRuns : Nat → RE → List Char → List (List Char × Option (List Char))
  | 0, _, _ => []
  | _ + 1, .eps, s => [(s, none)]
  | _ + 1, .cls _, [] => []
  | _ + 1, .cls p, c :: t => if p c then [(t, none)] else []
  | f + 1, .cat a b, s =>
      (reRuns f a s).flatMap fun pr =>
        (reRuns f b pr.1).map fun qr => (qr.1, pr.2.orElse fun _ => qr.2)
  | f + 1, .alt a b, s => reRuns f a s ++ reRuns f b s
  | f + 1, .star a, s =>
      (((reRuns f a s).filter fun pr => pr.1.length < s.length).flatMap
        fun pr => (reRuns f (.star a) pr.1).map
          fun qr => (qr.1, pr.2.orElse fun _ => qr.2)) ++ [(s, none)]
  | f + 1, .grp a, s =>
      (reRuns f a s).map fun pr => (pr.1, some (s.take (s.length - pr.1.length)))

/-- Fuel sufficient for `reRuns` on `r` and `s` (see `reRuns`). -/
def reFuel (r : RE) (s : List Char) : Nat :=
  (r.size + 1) * (s.length + 2)

/-- `re.fullmatch(pattern, s)` is truthy: some match consumes all of `s`
(`Series.str.fullmatch` anchors the pattern at both ends). -/
def reFullmatch (r : RE) (s : String) : Bool :=
  (reRuns (reFuel r s.data) r s.data).any fun pr => pr.1.isEmpty

/-- `re.search` from the leftmost matching position: the highest-priority
match there, as (suffix, group-1 capture). -/
def reSearchList (r : RE) : List Char → Option (List Char × Option (List Char))
  | [] =>
    match reRuns (reFuel r []) r [] with
    | pr :: _ => some pr
    | [] => none
  | c :: t =>
    match reRuns (reFuel r (c :: t)) r (c :: t) with
    | pr :: _ => some pr
    | [] => reSearchList r t

/-- `Series.str.extract(pattern, expand=False)` on one value: the text of
capture group 1 of the `re.search` match, `NaN` (`none`) when there is no
match or the group did not participate. -/
def reExtract (r : RE) (s : String) : Option String :=
  match reSearchList r s.data with
  | some (_, some g) => some (String.mk g)
  | some (_, none) => none
  | none => none

/-- `re.sub(pattern, "", s)` (as `Series.str.replace(pat, "", regex=True)`):
replace every non-overlapping match by the empty string, scanning left to
right; a zero-width match keeps the current character and advances. -/
def reSubAux (r : RE) : Nat → List Char → List Char
  | 0, s => s
  | _ + 1, [] => []
  | f + 1, s@(c :: t) =>
    match reRuns (reFuel r s) r s with
    | pr :: _ =>
        if pr.1.length = s.length then c :: reSubAux r f t
        else reSubAux r f pr.1
    | [] => c :: reSubAux r f t

/-- See `reSubAux`. -/
def reSub (r : RE) (s : String) : String :=
  ⟨reSubAux r (s.data.length + 1) s.data⟩

/-- A literal character. -/
def reChr (c : Char) : RE := .cls (fun x => x = c)

/-- `.` outside DOTALL mode: any character except a newline. -/
def reAny : RE := .cls (fun c => c ≠ '\n')

/-- `\w` (ASCII fragment of Python's unicode word class: letters, digits,
underscore; the corpus paths the code matches are ASCII). -/
def isWordChar (c : Char) : Bool := c.isAlphanum || c = '_'

/-- `\s` (ASCII whitespace fragment). -/
def isSpaceChar (c : Char) : Bool :=
  c = ' ' || c = '\t' || c = '\n' || c = '\r' || c = '\x0b' || c = '\x0c'

/-- A literal string, character by character. -/
def reLit (s : String) : RE :=
  s.data.foldr (fun c acc => .cat (reChr c) acc) .eps

/-- A filesystem path interpolated into an f-string pattern: each `.` in the
path acts as the `.` metacharacter, every other path character is literal. -/
def reOfPath (s : String) : RE :=
  s.data.foldr (fun c acc => .cat (if c = '.' then reAny else reChr c) acc) .eps

/-- `r?`. -/
def reOpt (r : RE) : RE := .alt r .eps

/-- `r+`. -/
def rePlus (r : RE) : RE := .cat r (.star r)

/-- `.*`. -/
def reStarAny : RE := .star reAny

end RegexEngine

/-- The Python exceptions the data layer raises or catches.
`notFound` is `FileNotFoundError`; `dataIntegrity` the `assert not y.isna().any()`
failures of the label extractors; `labelMismatch` the `"Labels must match"`
assertion of `ConcatTask.load_csv`; `notLoaded` the
`"must be loaded before intersecting"` assertions of `Task.intersect`;
`indexError` is `intersect_rows[0]` / `self.tasks[0]` on an empty list;
`keyError` a pandas lookup of an absent column or index label;
`valueError` a length-mismatched index assignment. -/
inductive SFError where
  | notFound : SFError
  | dataIntegrity : String → SFError
  | labelMismatch : SFError
  | notLoaded : SFError
  | indexError : SFError
  | keyError : SFError
  | valueError : SFError
deriving DecidableEq

/-- The configuration the layer reads from the `settings` module `S` plus the
two external collaborators that `Task.load_csv` calls into.
`datasets` is the resolved `S.DATASETS` mapping (dataset name to its on-disk
root, built from the `datasets/` directory listing at import time);
`output` is `S.OUTPUT`; `keep_first_10_pc` is `S.KEEP_FIRST_10_PC`
(a CLI flag, default `False`); `pca10` stands for the excluded sklearn
`StandardScaler` + 10-component `PCA` pipeline (floating point, external);
`m21ids` stands for the excluded `music21` package's feature-id taxonomy
consumed by `get_music21_features_ids`. -/
structure Config where
  datasets : String → String
  output : String
  keep_first_10_pc : Bool
  pca10 : DF → DF
  m21ids : String → List String

/-- `FeatureSet` (data.py:78): how to read one tool's CSV output. -/
structure FeatureSet where
  name : String
  filename_col : String
  label_col_selector : String
  illegal_cols : List String
  accepted_exts : List String
  music21_filter : Option String := none
  csvname : String

/-- `FeatureSet.accepts` (data.py:140). -/
def FeatureSet.accepts (f : FeatureSet) (ext : String) : Bool :=
  f.accepted_exts.contains ext

/-- `filter_music21_features` (data.py:20): remove the columns whose name
starts with one of the music21 feature ids of the requested type. -/
def filter_music21_features (m21ids : String → List String) (df : DF)
    (feature_type : String) : DF :=
  let feature_ids := m21ids feature_type
  df.selectCols (df.cols.map fun col =>
    ¬ feature_ids.any (fun fid => fid.isPrefixOf col))

/-- `FeatureSet.parse` (data.py:120): drop the illegal columns (pandas
`df.drop(columns=...)` raises `KeyError` when one is absent), then apply the
optional music21 filter. -/
def FeatureSet.parse (f : FeatureSet) (m21ids : String → List String)
    (df : DF) : Except SFError DF := do
  let df ←
    if f.illegal_cols.isEmpty then pure df
    else if f.illegal_cols.all (fun c => df.cols.contains c) then
      pure (f.illegal_cols.foldl DF.dropCol df)
    else throw .keyError
  match f.music21_filter with
  | none => pure df
  | some ft => pure (filter_music21_features m21ids df ft)

/-- `Dataset` (data.py:190).  `make_label` is the per-dataset label
extractor; `legal_filenames` the compiled `legal_filenames` pattern;
`nsplits` defaults to `S.SPLITS = 10` and `None` disables the
class-cardinality filter. -/
structure Dataset where
  name : String
  make_label : DF → String → Except SFError (DF × LabSeries)
  label_content : String
  extensions : List String
  legal_filenames : RE := reStarAny
  friendly_name : String
  nsplits : Option Nat := some 10

section LabelExtractors

/-- The pattern `r".*asap-dataset/(\w+)/.*"` of `asap_label` (data.py:255). -/
def asapRE : RE :=
  .cat reStarAny (.cat (reLit "asap-dataset/")
    (.cat (.grp (rePlus (.cls isWordChar))) (.cat (reChr '/') reStarAny)))

/-- The pattern `r".*/xml/[\w -]+-1(\d{2})\d-[\w\[\]-]+"` of `didone_label`
(data.py:262). -/
def didoneRE : RE :=
  .cat reStarAny (.cat (reLit "/xml/")
    (.cat (rePlus (.cls fun c => isWordChar c || c = ' ' || c = '-'))
      (.cat (reChr '-') (.cat (reChr '1')
        (.cat (.grp (.cat (.cls Char.isDigit) (.cls Char.isDigit)))
          (.cat (.cls Char.isDigit) (.cat (reChr '-')
            (rePlus (.cls fun c => isWordChar c || c = '[' || c = ']' || c = '-')))))))))

/-- The pattern `r".*mass-duos-corpus-josquin-larue/([\s\w\(\)]+)/.*"` of
`jlr_label` (data.py:315). -/
def jlrRE : RE :=
  .cat reStarAny (.cat (reLit "mass-duos-corpus-josquin-larue/")
    (.cat (.grp (rePlus (.cls fun c => isSpaceChar c || isWordChar c || c = '(' || c = ')')))
      (.cat (reChr '/') reStarAny)))

/-- The pattern `r".*quartets/(\w+)/.*"` of `quartets_label` (data.py:322). -/
def quartetsRE : RE :=
  .cat reStarAny (.cat (reLit "quartets/")
    (.cat (.grp (rePlus (.cls isWordChar))) (.cat (reChr '/') reStarAny)))

/-- `df[label_col].str.extract(pattern, expand=False)`: apply the pattern to
every value of the label column (`none` when the column is missing is the
caller's `KeyError`). -/
def dfExtract (r : RE) (df : DF) (label_col : String) : Option LabSeries :=
  (df.colIdx label_col).map fun li =>
    df.rows.map fun row => (row.1, reExtract r (rowStr row li))

/-- `asap_label` (data.py:254): regex-extract the composer directory; the
`assert not y.isna().any()` aborts with `"asap: NaN in y!"` when any row
failed to match. -/
def asap_label (df : DF) (label_col : String) : Except SFError (DF × LabSeries) :=
  match dfExtract asapRE df label_col with
  | none => throw .keyError
  | some y =>
    if y.any (fun e => e.2.isNone) then throw (.dataIntegrity "asap")
    else .ok (df, y)

/-- `didone_label` (data.py:260): regex-extract the decade digits, replace
the whole-value `"97"` by `"79"`, fill every non-match with `"nd"`; the
final assert can then never fire. -/
def didone_label (df : DF) (label_col : String) : Except SFError (DF × LabSeries) :=
  match dfExtract didoneRE df label_col with
  | none => throw .keyError
  | some y =>
    let y := y.map fun e => (e.1, if e.2 = some "97" then some "79" else e.2)
    let y := y.map fun e => (e.1, match e.2 with | none => some "nd" | some v => some v)
    if y.any (fun e => e.2.isNone) then throw (.dataIntegrity "Didone")
    else .ok (df, y)

/-- `jlr_label` (data.py:313). -/
def jlr_label (df : DF) (label_col : String) : Except SFError (DF × LabSeries) :=
  match dfExtract jlrRE df label_col with
  | none => throw .keyError
  | some y =>
    if y.any (fun e => e.2.isNone) then throw (.dataIntegrity "JLR")
    else .ok (df, y)

/-- `quartets_label` (data.py:321). -/
def quartets_label (df : DF) (label_col : String) : Except SFError (DF × LabSeries) :=
  match dfExtract quartetsRE df label_col with
  | none => throw .keyError
  | some y =>
    if y.any (fun e => e.2.isNone) then throw (.dataIntegrity "quartets")
    else .ok (df, y)

/-- Python `s[:-4]`: drop the last four characters (data.py:290-291 strips
the four-character file extensions this way). -/
def dropLast4 (s : String) : String :=
  ⟨s.data.take (s.data.length - 4)⟩

/-- `str.replace` of `","`, `";"` and `" "` by `"_"` (data.py:294-296;
plain substring replacement of single characters). -/
def replaceStrange (s : String) : String :=
  ⟨s.data.map fun c => if c = ',' || c = ';' || c = ' ' then '_' else c⟩

/-- The prefix-stripping regex `rf".*{path}/"` of `ewld_label`
(data.py:286-288): everything up to the last occurrence of the dataset root
followed by a slash is removed. -/
def ewldStripRE (path : String) : RE :=
  .cat reStarAny (.cat (reOfPath path) (reChr '/'))

/-- The feature-side normalization of `ewld_label`: strip the dataset-root
prefix, then strip the (assumed four-character) extension.  Note: the
`","`/`";"`/`" "` replacement is NOT applied on this side. -/
def ewldNormDf (path : String) (s : String) : String :=
  dropLast4 (reSub (ewldStripRE path) s)

/-- The normalized genre-table paths of `ewld_label`, deduplicated and
sorted ascending (the keys that `groupby("path_leadsheet")` produces;
Python compares strings lexicographically by code point, modelled on the
character lists). -/
def ewldDbKeys (db : List (String × Option String)) : List String :=
  ((db.map fun p => (replaceStrange (dropLast4 p.1), p.2)).map fun p => p.1).dedup.insertionSort
    fun a b => a.data ≤ b.data

/-- The genre-table rows of `ewld_label` after `str[:-4]` and the character
replacement, grouped by path with `groupby("path_leadsheet").first()`:
keys sorted ascending, each key paired with its first non-null genre
(pandas `GroupBy.first` skips nulls). -/
def ewldDbNorm (db : List (String × Option String)) : List (String × Option String) :=
  (ewldDbKeys db).map fun k =>
    (k, (((db.map fun p => (replaceStrange (dropLast4 p.1), p.2)).filter
      fun p => p.1 = k).filterMap fun p => p.2).head?)

/-- `ewld_label` (data.py:270): `db` is the result of the SQL query joining
`works` to `work_genres` (path, genre); the feature table's label column is
normalized IN PLACE (prefix strip + extension strip only), the genre table's
paths get the extension strip plus the `","`/`";"`/`" "` replacement, the
genre table is deduplicated by path (first non-null genre, keys sorted by
the groupby), and the feature rows are kept exactly when their normalized
filename is in the genre-path set; the genre vector is filtered to the
matched paths and positionally re-indexed onto the filtered table's index
(`y.index = df.index`, a `ValueError` when the lengths differ). -/
def ewld_label (path : String) (db : List (String × Option String)) (df : DF)
    (label_col : String) : Except SFError (DF × LabSeries) :=
  match df.colIdx label_col with
  | none => throw .keyError
  | some li =>
    let df1 : DF := ⟨df.cols, df.rows.map fun row =>
      (row.1, row.2.set li (.str (ewldNormDf path (rowStr row li))))⟩
    let db3 := ewldDbNorm db
    let mask := df1.rows.map fun row => db3.any fun p => p.1 = rowStr row li
    let df2 := df1.maskRows mask
    let y0 := db3.filter fun p => df2.rows.any fun row => rowStr row li = p.1
    if y0.length = df2.rows.length then
      let y : LabSeries := (df2.rows.zip y0).map fun q => (q.1.1, q.2.2)
      if y.any (fun e => e.2.isNone) then throw (.dataIntegrity "EWLD")
      else .ok (df2, y)
    else throw .valueError

/-- Modelled from the claim's words (C3), for comparison with `ewld_label`:
identical except that the `","`/`";"`/`" "` replacement is applied to the
feature table's filename column as well. -/
def ewld_label_claimed (path : String) (db : List (String × Option String))
    (df : DF) (label_col : String) : Except SFError (DF × LabSeries) :=
  match df.colIdx label_col with
  | none => throw .keyError
  | some li =>
    let df1 : DF := ⟨df.cols, df.rows.map fun row =>
      (row.1, row.2.set li (.str (replaceStrange (ewldNormDf path (rowStr row li)))))⟩
    let db3 := ewldDbNorm db
    let mask := df1.rows.map fun row => db3.any fun p => p.1 = rowStr row li
    let df2 := df1.maskRows mask
    let y0 := db3.filter fun p => df2.rows.any fun row => rowStr row li = p.1
    if y0.length = df2.rows.length then
      let y : LabSeries := (df2.rows.zip y0).map fun q => (q.1.1, q.2.2)
      if y.any (fun e => e.2.isNone) then throw (.dataIntegrity "EWLD")
      else .ok (df2, y)
    else throw .valueError

end LabelExtractors

/-- Step 2 of `Dataset.parse` (data.py:234-237): the boolean mask
`df[label_col].str.fullmatch(legal_filenames).to_numpy()`. -/
def legalFilenameMask (legal : RE) (df : DF) (li : Nat) : List Bool :=
  df.rows.map fun r => reFullmatch legal (rowStr r li)

/-- Step 3 of `Dataset.parse` (data.py:239-244): with `nsplits` set, keep
only the rows whose label has frequency strictly greater than `nsplits`
(`np.unique(y, return_counts=True)`, `y_vals[y_freq > nsplits]`,
`y.isin(y_vals)`), applying the same positional mask to table and labels. -/
def minClassFilter (n : Nat) (df : DF) (y : LabSeries) : DF × LabSeries :=
  let y_vals := ((y.map fun e => e.2).dedup).filter
    fun v => n < (y.map fun e => e.2).count v
  let idx := y.map fun e => y_vals.contains e.2
  (df.maskRows idx, maskFilter y idx)

/-- The filename prefix strip of `Dataset.parse` (data.py:249-250):
`filenames.str.replace(f".*{dataset_path}/?", "", regex=True)`. -/
def stripDatasetRoot (dataset_path : String) (s : String) : String :=
  reSub (.cat reStarAny (.cat (reOfPath dataset_path) (reOpt (reChr '/')))) s

/-- `Dataset.parse` (data.py:204): label extraction, legal-filename
filtering, class-cardinality filtering, filename extraction, label-column
drop, dataset-root prefix strip.  `remove_col_label` carries Python's value
space: `some b` is the bool `b`, `none` is `None`; the code's guard is
`remove_col_label is not None` (data.py:247), compared against `None`, not
against its boolean value.  `datasetsMap` is the resolved `S.DATASETS`. -/
def Dataset.parse (d : Dataset) (datasetsMap : String → String) (df : DF)
    (filename_col label_col : String) (remove_col_label : Option Bool := some true) :
    Except SFError (DF × LabSeries × SSeries) := do
  let (df, y) ← d.make_label df label_col
  -- removing invalid rows
  match df.colIdx label_col with
  | none => throw .keyError
  | some li =>
    let idx := legalFilenameMask d.legal_filenames df li
    let df := df.maskRows idx
    let y := maskFilter y idx
    -- removing classes with little cardinality
    let (df, y) :=
      match d.nsplits with
      | none => (df, y)
      | some n => minClassFilter n df y
    match df.colIdx filename_col with
    | none => throw .keyError
    | some fi =>
      let filenames : SSeries := df.rows.map fun r => (r.1, rowStr r fi)
      let df := if remove_col_label ≠ none then df.dropCol label_col else df
      let dataset_path := datasetsMap d.name
      let filenames := filenames.map fun e => (e.1, stripDatasetRoot dataset_path e.2)
      return (df, y, filenames)

section TaskMachinery

/-- `Task` (data.py:358), named `STask` here because `Task` is taken by a
core Lean type.  `loaded` is the private `__loaded` flag; `hasX`
models `hasattr(task, "x")` (the intersection pass checks it separately);
`x`, `y`, `filenames` are the attributes written by `load_csv`. -/
structure STask where
  dataset : Dataset
  feature_set : FeatureSet
  extension : String
  loaded : Bool := false
  hasX : Bool := false
  x : DF := ⟨[], []⟩
  y : LabSeries := []
  filenames : SSeries := []

/-- `Task.get_csv_path` (data.py:485):
`OUTPUT / dataset.name / (csvname + "-" + extension[1:] + ".csv")`. -/
def STask.get_csv_path (cfg : Config) (t : STask) : String :=
  cfg.output ++ "/" ++ t.dataset.name ++ "/" ++
    t.feature_set.csvname ++ "-" ++ t.extension.drop 1 ++ ".csv"

/-- `Task.load_csv` (data.py:403).  `fs` maps a path to the dataframe its
CSV parses to (`none`: the file is absent and `FileNotFoundError` is
raised); the chardet encoding fallback happens inside the read and is
invisible at this level.  On success the task is marked loaded; a second
call returns immediately. -/
def STask.load_csv (cfg : Config) (fs : String → Option DF) (t : STask) :
    Except SFError STask := do
  if t.loaded then return t
  match fs (t.get_csv_path cfg) with
  | none => throw .notFound
  | some df => do
    let (x, y, filenames) ←
      t.dataset.parse cfg.datasets df t.feature_set.filename_col
        t.feature_set.label_col_selector
    let x ← t.feature_set.parse cfg.m21ids x
    -- keep only numeric data
    let x := x.selectNumeric
    -- take only the first 10 Principal Components
    let x := if cfg.keep_first_10_pc then cfg.pca10 x else x
    return { t with loaded := true, hasX := true, x := x, y := y, filenames := filenames }

/-- The roster walk of `Task.intersect` (data.py:470-479): assert every
task of the list is loaded, skip those without an `x` attribute, and
collect the filename vectors of the tasks sharing the dataset friendly
name and the extension. -/
def collectRows (roster : List STask) (t : STask) : Except SFError (List SSeries) :=
  match roster with
  | [] => .ok []
  | k :: rest =>
    if ¬ k.loaded then throw .notLoaded
    else if ¬ k.hasX then collectRows rest t
    else if k.dataset.friendly_name = t.dataset.friendly_name ∧
        k.extension = t.extension then
      (k.filenames :: ·) <$> collectRows rest t
    else collectRows rest t

/-- `Task.intersect` (data.py:455): restrict `x` and `y` (but not
`filenames_`) to the rows whose filename lies in
`set(intersect_rows[0]).intersection(*intersect_rows)` — i.e. in every
collected filename vector; `intersect_rows[0]` on an empty collection is
an `IndexError`. -/
def STask.intersect (t : STask) (roster : List STask) : Except SFError STask := do
  if ¬ t.loaded then throw .notLoaded
  let intersect_rows ← collectRows roster t
  match intersect_rows with
  | [] => throw .indexError
  | _ :: _ =>
    let idx := t.filenames.map fun e =>
      intersect_rows.all fun l => l.any fun e' => e'.2 = e.2
    return { t with x := t.x.maskRows idx, y := maskFilter t.y idx }

end TaskMachinery

section ConcatMachinery

/-- `Series.sort_values()` on a string Series: rows reordered by value
(stable model of the sort; index labels travel with the values). -/
def sortByVal (s : SSeries) : SSeries :=
  s.insertionSort fun a b => a.2.data ≤ b.2.data

/-- `y[index_list]`: label-based selection of Series entries, in the order
of the requested labels; a missing label is a pandas `KeyError`. -/
def seriesSel (y : LabSeries) (idx : List Nat) : Except SFError LabSeries :=
  idx.mapM fun i =>
    match y.find? (fun e => e.1 = i) with
    | some e => .ok e
    | none => throw .keyError

/-- `x.loc[index_list]`: label-based row selection, in the order of the
requested labels; a missing label is a pandas `KeyError`. -/
def DF.locRows (df : DF) (idx : List Nat) : Except SFError DF := do
  let rows ← idx.mapM fun i =>
    match df.rows.find? (fun r => r.1 = i) with
    | some r => pure r
    | none => throw .keyError
  return ⟨df.cols, rows⟩

/-- `pd.concat([a, b], axis=1, join="inner")`: columns appended (name
collisions kept), rows restricted to the index labels present in both, in
the first frame's order, each row holding the cells of both frames. -/
def concatInner (a b : DF) : DF :=
  ⟨a.cols ++ b.cols,
    a.rows.filterMap fun r =>
      (b.rows.find? fun rb => rb.1 = r.1).map fun rb => (r.1, r.2 ++ rb.2)⟩

/-- `ConcatTask` (data.py:490): the member tasks plus the private
`__loaded` flag of the subclass (name-mangled separately from `Task`'s)
and the attributes `load_csv` writes. -/
structure ConcatTask where
  tasks : List STask
  loaded : Bool := false
  x : DF := ⟨[], []⟩
  y : LabSeries := []
  filenames : SSeries := []

/-- The body of the `for task in self.tasks[1:]` loop of
`ConcatTask.load_csv` (data.py:541-547): load the member, select its labels
and rows in its own filename-sorted order, assert the label values coincide
element-wise with the first member's (`"Labels must match"`), and
inner-concatenate the feature columns, collecting the mutated member. -/
def concatFoldStep (cfg : Config) (fs : String → Option DF) (y : LabSeries)
    (acc : DF × List STask) (task : STask) : Except SFError (DF × List STask) := do
  let task ← task.load_csv cfg fs
  let idx := (sortByVal task.filenames).map fun e => e.1
  let yk ← seriesSel task.y idx
  let xk ← task.x.locRows idx
  if yk.map (fun e => e.2) = y.map (fun e => e.2) then
    pure (concatInner acc.1 xk, task :: acc.2)
  else throw .labelMismatch

/-- `ConcatTask.load_csv` (data.py:531): load the first member, sort its
filename vector, select its labels and rows in that order; fold the loop
body `concatFoldStep` over the remaining members.  The member tasks are
mutated in place by their own `load_csv` calls. -/
def ConcatTask.load_csv (cfg : Config) (fs : String → Option DF)
    (c : ConcatTask) : Except SFError ConcatTask := do
  if c.loaded then return c
  match c.tasks with
  | [] => throw .indexError
  | t0 :: rest => do
    let t0 ← t0.load_csv cfg fs
    let filenames := sortByVal t0.filenames
    let y ← seriesSel t0.y (filenames.map fun e => e.1)
    let x ← t0.x.locRows (filenames.map fun e => e.1)
    let (x, restRev) ← rest.foldlM (concatFoldStep cfg fs y) (x, [])
    return { c with
      tasks := (t0 :: restRev.reverse)
      loaded := true
      x := x
      y := y
      filenames := filenames }

end ConcatMachinery

section BatchPipeline

/-- `load_task_csvs` (data.py:563), generic over the element type since the
same function is applied to the plain-task batch and to the concat batch:
load each element, catching (and logging) only `FileNotFoundError`; any
other failure propagates and aborts the batch. -/
def load_batch (load : α → Except SFError α) : List α → Except SFError (List α)
  | [] => .ok []
  | t :: rest =>
    match load t with
    | .ok t' => (t' :: ·) <$> load_batch load rest
    | .error .notFound => (t :: ·) <$> load_batch load rest
    | .error e => .error e

/-- One iteration of the intersection pass: replace the `i`-th roster entry
by the result of intersecting it against the current roster. -/
def intersectStep (r : List STask) (i : Nat) : Except SFError (List STask) :=
  match r[i]? with
  | none => pure r
  | some t => do
    let t' ← t.intersect r
    pure (r.set i t')

/-- Step 2 of `load_tasks` (data.py:600-601): `for t in tasks:
t.intersect(tasks)` — each task is intersected against the evolving roster
(the mutation is in place, so later iterations see earlier results). -/
def intersectPass (roster : List STask) : Except SFError (List STask) :=
  (List.range roster.length).foldlM intersectStep roster

/-- The `for c in concat_tasks` loop body iterates a Python list by index,
seeing appends made by its own body; `body` abstracts the loop body
(building a `ConcatTask` from the matching tasks), `fuel` bounds the
iteration. -/
def liveFor (body : List ConcatTask → ConcatTask → List ConcatTask) :
    Nat → List ConcatTask → Nat → List ConcatTask
  | 0, lst, _ => lst
  | f + 1, lst, i =>
    match lst[i]? with
    | none => lst
    | some c => liveFor body f (body lst c) (i + 1)

/-- Step 3 of `load_tasks` (data.py:603-618): the local assignment
`concat_tasks = []` rebinds the name, shadowing the module-level list of
feature-set-name tuples (data.py:554-560), so the `for c in concat_tasks`
loop iterates an empty list whatever `body` would do. -/
def concatAssembly (datasets : List Dataset)
    (body : Dataset → String → List ConcatTask → ConcatTask → List ConcatTask)
    (fuel : Nat) : List ConcatTask :=
  let concat_tasks : List ConcatTask := []
  datasets.foldl
    (fun acc d =>
      d.extensions.foldl (fun acc2 ext => liveFor (body d ext) fuel acc2 0) acc)
    concat_tasks

/-- The task comprehension of `load_tasks` (data.py:588-594). -/
def mkTasks (datasets : List Dataset) (feature_sets : List FeatureSet) :
    List STask :=
  datasets.flatMap fun d =>
    d.extensions.flatMap fun e =>
      (feature_sets.filter fun f => f.accepts e).map fun f =>
        { dataset := d, feature_set := f, extension := e }

/-- `load_tasks` (data.py:573): build the tasks, load the CSVs (skipping
NotFound), run the intersection pass, assemble the concat tasks, load them,
and return plain tasks and concat tasks (`tasks += concat_tasks`). -/
def load_tasks (cfg : Config) (fs : String → Option DF)
    (datasets : List Dataset) (feature_sets : List FeatureSet)
    (body : Dataset → String → List ConcatTask → ConcatTask → List ConcatTask)
    (fuel : Nat) : Except SFError (List STask × List ConcatTask) := do
  let tasks := mkTasks datasets feature_sets
  let tasks ← load_batch (STask.load_csv cfg fs) tasks
  let tasks ← intersectPass tasks
  let concat_tasks := concatAssembly datasets body fuel
  let concat_tasks ← load_batch (ConcatTask.load_csv cfg fs) concat_tasks
  return (tasks, concat_tasks)

end BatchPipeline

section Helpers

theorem maskFilter_length_le (xs : List α) (m : List Bool) :
    (maskFilter xs m).length ≤ xs.length := by
  calc (maskFilter xs m).length ≤ (xs.zip m).length := List.length_filterMap_le _ _
    _ ≤ xs.length := by rw [List.length_zip]; exact Nat.min_le_left _ _

theorem maskFilter_map_self (xs : List α) (p : α → Bool) :
    maskFilter xs (xs.map p) = xs.filter p := by
  induction xs with
  | nil => rfl
  | cons x xs ih =>
    simp only [maskFilter, List.map_cons, List.zip_cons_cons, List.filterMap_cons,
      List.filter_cons] at *
    by_cases hp : p x <;> simp [hp, ih]

theorem maskFilter_zip_eq (xs : List α) (ys : List β) (p : β → Bool)
    (h : xs.length = ys.length) :
    maskFilter xs (ys.map p) =
      (xs.zip ys).filterMap fun q => if p q.2 then some q.1 else none := by
  induction xs generalizing ys with
  | nil => rfl
  | cons x xs ih =>
    cases ys with
    | nil => simp at h
    | cons y ys =>
      simp only [List.length_cons, Nat.succ.injEq] at h
      simp only [maskFilter, List.map_cons, List.zip_cons_cons, List.filterMap_cons] at *
      by_cases hp : p y <;> simp [hp, ih ys h]

end Helpers

section ClaimC2

/-- The inner live loop does nothing on the empty list. -/
theorem liveFor_nil (body : List ConcatTask → ConcatTask → List ConcatTask)
    (f i : Nat) : liveFor body f [] i = [] := by
  cases f <;> rfl

/-- The shadowed `concat_tasks = []` makes the whole assembly produce
nothing, whatever the loop body would build. -/
theorem concatAssembly_eq_nil (datasets : List Dataset)
    (body : Dataset → String → List ConcatTask → ConcatTask → List ConcatTask)
    (fuel : Nat) : concatAssembly datasets body fuel = [] := by
  unfold concatAssembly
  induction datasets with
  | nil => rfl
  | cons d ds ih =>
    simp only [List.foldl_cons]
    have hext : ∀ (exts : List String),
        exts.foldl (fun acc2 ext => liveFor (body d ext) fuel acc2 0) [] = [] := by
      intro exts
      induction exts with
      | nil => rfl
      | cons e es ihe => simp only [List.foldl_cons, liveFor_nil]; exact ihe
    rw [hext d.extensions]; exact ih

/-- C2: `load_tasks` never constructs any `ConcatTask`: the local variable
`concat_tasks` is rebound to an empty list (data.py:604) before the
assembly loop iterates over it (data.py:607), so the loop body never runs
and the returned roster consists of the plain tasks only, whatever CSV
files exist (`fs`), whatever the loop body would do. -/
theorem spec_c2_load_tasks_no_concat (cfg : Config) (fs : String → Option DF)
    (datasets : List Dataset) (feature_sets : List FeatureSet)
    (body : Dataset → String → List ConcatTask → ConcatTask → List ConcatTask)
    (fuel : Nat) (ts : List STask) (cs : List ConcatTask)
    (h : load_tasks cfg fs datasets feature_sets body fuel = .ok (ts, cs)) :
    cs = [] ∧
    load_tasks cfg fs datasets feature_sets body fuel =
      (load_batch (STask.load_csv cfg fs) (mkTasks datasets feature_sets) >>=
        intersectPass).map (fun r => (r, [])) := by
  have hassembly := concatAssembly_eq_nil datasets body fuel
  simp only [load_tasks, hassembly] at h ⊢
  cases hb : load_batch (STask.load_csv cfg fs) (mkTasks datasets feature_sets) with
  | error e =>
    rw [hb] at h
    simp [bind, Except.bind] at h
  | ok tasks =>
    rw [hb] at h
    simp only [bind, Except.bind] at h ⊢
    cases hi : intersectPass tasks with
    | error e =>
      rw [hi] at h
      simp at h
    | ok tasks' =>
      rw [hi] at h
      simp [load_batch, pure, Except.pure] at h
      exact ⟨h.2, rfl⟩

end ClaimC2

section ClaimC6

/-- Counting a value among the seconds of a filtered series is unchanged by
a filter whose predicate holds at that value. -/
theorem count_snd_filter (y : LabSeries) (q : Option String → Bool)
    (v : Option String) (hv : q v = true) :
    ((y.filter fun e => q e.2).map fun e' => e'.2).count v =
      (y.map fun e' => e'.2).count v := by
  induction y with
  | nil => rfl
  | cons a ys ih =>
    by_cases h : q a.2
    · simp only [List.filter_cons, h, if_true, List.map_cons, List.count_cons, ih]
    · have hne : (a.2 == v) = false := by
        cases hav : a.2 == v
        · rfl
        · exact absurd (eq_of_beq hav ▸ hv) (by simp [h])
      simp only [List.filter_cons, h, if_false, List.map_cons, List.count_cons, ih,
        hne, Bool.false_eq_true, if_false, Nat.add_zero]

/-- C6: the min-class-count step of `Dataset.parse` (data.py:239-244) never
grows the table, applies one and the same positional row mask to the
feature table and the label vector, and every label retained in the result
has frequency strictly greater than `nsplits` there. -/
theorem spec_c6_min_class_filter (n : Nat) (df : DF) (y : LabSeries) :
    (minClassFilter n df y).1.rows.length ≤ df.rows.length ∧
    (minClassFilter n df y).2.length ≤ y.length ∧
    (minClassFilter n df y).1 = df.maskRows (y.map fun e =>
      (((y.map fun e' => e'.2).dedup).filter
        (fun v => n < (y.map fun e' => e'.2).count v)).contains e.2) ∧
    (minClassFilter n df y).2 = maskFilter y (y.map fun e =>
      (((y.map fun e' => e'.2).dedup).filter
        (fun v => n < (y.map fun e' => e'.2).count v)).contains e.2) ∧
    ∀ e ∈ (minClassFilter n df y).2,
      n < ((minClassFilter n df y).2.map fun e' => e'.2).count e.2 := by
  refine ⟨maskFilter_length_le _ _, maskFilter_length_le _ _, rfl, rfl, ?_⟩
  intro e he
  have h2 : (minClassFilter n df y).2 = y.filter fun e =>
      (((y.map fun e' => e'.2).dedup).filter
        (fun v => n < (y.map fun e' => e'.2).count v)).contains e.2 :=
    maskFilter_map_self y _
  rw [h2] at he ⊢
  have hpred := (List.mem_filter.mp he).2
  rw [count_snd_filter y _ e.2 hpred]
  have hmem : e.2 ∈ ((y.map fun e' => e'.2).dedup).filter
      (fun v => n < (y.map fun e' => e'.2).count v) := by
    simpa using hpred
  exact of_decide_eq_true (List.mem_filter.mp hmem).2

end ClaimC6

section ClaimC9

/-- The `legal_filenames` pattern `r".*/[A-Z]+\w*.mid"` of the
"asap-performance" dataset (data.py:341); the unescaped `.` before `mid` is
the any-character metacharacter. -/
def asap_performance_legal : RE :=
  .cat reStarAny (.cat (reChr '/') (.cat (rePlus (.cls Char.isUpper))
    (.cat (.star (.cls isWordChar)) (.cat reAny (reLit "mid")))))

/-- The two-filename table of the claim's concrete scenario. -/
def dfC9 : DF := ⟨["F"], [(0, [.str "a/Foo.mid"]), (1, [.str "a/bar.mid"])]⟩

/-- C9: the legal-filename filter of `Dataset.parse` (data.py:234-237)
keeps exactly the rows whose label-column value fully matches the
dataset's `legal_filenames` pattern (anchored at both ends), and on the
concrete filenames `["a/Foo.mid", "a/bar.mid"]` with the asap-performance
pattern it retains only the first. -/
theorem spec_c9_legal_filename_filter :
    (∀ (legal : RE) (df : DF) (li : Nat),
        df.maskRows (legalFilenameMask legal df li) =
          ⟨df.cols, df.rows.filter fun r => reFullmatch legal (rowStr r li)⟩) ∧
    reFullmatch asap_performance_legal "a/Foo.mid" = true ∧
    reFullmatch asap_performance_legal "a/bar.mid" = false ∧
    dfC9.maskRows (legalFilenameMask asap_performance_legal dfC9 0) =
      ⟨["F"], [(0, [.str "a/Foo.mid"])]⟩ := by
  refine ⟨?_, by decide, by decide, by decide⟩
  intro legal df li
  unfold DF.maskRows legalFilenameMask
  rw [maskFilter_map_self]

end ClaimC9

section ClaimC10

/-- The label column never survives `DF.dropCol`. -/
theorem dropCol_not_mem (df : DF) (c : String) : c ∉ (df.dropCol c).cols := by
  intro hmem
  unfold DF.dropCol DF.selectCols at hmem
  rw [maskFilter_map_self] at hmem
  have := (List.mem_filter.mp hmem).2
  simp at this

/-- C10: `Dataset.parse` drops the label column for every value of its
`remove_col_label` argument, `False` included, because the guard
(data.py:247) tests `remove_col_label is not None` instead of the boolean
value: with any bool `some b` the result is the one obtained with
`some true`, and on success the label column is gone from the feature
table. -/
theorem spec_c10_remove_col_label (d : Dataset) (dmap : String → String)
    (df : DF) (fc lc : String) (b : Bool) :
    d.parse dmap df fc lc (some b) = d.parse dmap df fc lc (some true) ∧
    ∀ dfo y fns, d.parse dmap df fc lc (some b) = .ok (dfo, y, fns) →
      lc ∉ dfo.cols := by
  constructor
  · rfl
  · intro dfo y fns h
    unfold Dataset.parse at h
    simp only [bind, Except.bind] at h
    cases hml : d.make_label df lc with
    | error e => rw [hml] at h; simp at h
    | ok p =>
      rw [hml] at h
      split at h
      next => simp at h
      next q hq =>
        split at h
        next => simp at h
        next li hli =>
          split at h
          next => simp at h
          next fi hfi =>
            simp only [pure, Except.pure, Except.ok.injEq, Prod.mk.injEq] at h
            have hdf := h.1
            rw [if_pos (by simp : (some b ≠ none))] at hdf
            rw [← hdf]
            exact dropCol_not_mem _ lc

end ClaimC10

section ClaimC5

/-- `List.any` over a mapped list (heterogeneous version). -/
theorem list_any_map (f : α → β) (l : List α) (p : β → Bool) :
    (l.map f).any p = l.any fun a => p (f a) := by
  induction l with
  | nil => rfl
  | cons x xs ih => simp [List.any_cons, ih]

/-- `dfExtract` on a present column is the per-row regex extraction. -/
theorem dfExtract_some (r : RE) (df : DF) (lc : String) (li : Nat)
    (h : df.colIdx lc = some li) :
    dfExtract r df lc =
      some (df.rows.map fun row => (row.1, reExtract r (rowStr row li))) := by
  unfold dfExtract
  rw [h]
  rfl

/-- Common behaviour of the asap/JLR/quartets extractors: abort with the
DataIntegrity assertion when any row fails to match, otherwise return the
table untouched together with the complete extracted series. -/
theorem regexExtractorSpec (r : RE) (tag : String)
    (F : DF → String → Except SFError (DF × LabSeries))
    (hF : ∀ df lc, F df lc = match dfExtract r df lc with
      | none => throw .keyError
      | some y =>
        if y.any fun e => e.2.isNone then throw (.dataIntegrity tag)
        else .ok (df, y))
    (df : DF) (lc : String) (li : Nat) (h : df.colIdx lc = some li) :
    ((df.rows.any fun row => (reExtract r (rowStr row li)).isNone) = true →
        F df lc = .error (.dataIntegrity tag)) ∧
    (∀ dfo y, F df lc = .ok (dfo, y) → dfo = df ∧
        y = (df.rows.map fun row => (row.1, reExtract r (rowStr row li))) ∧
        ∀ e ∈ y, e.2.isSome = true) := by
  have hany : ((df.rows.map fun row =>
        ((row.1, reExtract r (rowStr row li)) : Nat × Option String)).any
          fun e => e.2.isNone) =
      df.rows.any fun row => (reExtract r (rowStr row li)).isNone := by
    rw [list_any_map]
  have hF2 : F df lc =
      if ((df.rows.map fun row =>
            ((row.1, reExtract r (rowStr row li)) : Nat × Option String)).any
          fun e => e.2.isNone) = true
      then throw (SFError.dataIntegrity tag)
      else .ok (df, df.rows.map fun row => (row.1, reExtract r (rowStr row li))) := by
    rw [hF df lc, dfExtract_some r df lc li h]
  constructor
  · intro hcond
    rw [hF2, hany, hcond]
    rfl
  · intro dfo y hok
    rw [hF2, hany] at hok
    cases hcond : df.rows.any fun row => (reExtract r (rowStr row li)).isNone with
    | true => rw [hcond] at hok; simp [throw, throwThe, MonadExceptOf.throw] at hok
    | false =>
      rw [hcond] at hok
      simp only [Bool.false_eq_true, if_false, Except.ok.injEq, Prod.mk.injEq] at hok
      refine ⟨hok.1.symm, hok.2.symm, ?_⟩
      intro e he
      rw [← hok.2] at he
      obtain ⟨row, hrow, hre⟩ := List.mem_map.mp he
      by_cases hn : (reExtract r (rowStr row li)).isNone
      · have hct : (df.rows.any fun row => (reExtract r (rowStr row li)).isNone) = true :=
          List.any_eq_true.mpr ⟨row, hrow, hn⟩
        rw [hcond] at hct
        simp at hct
      · rw [← hre]
        simpa [Option.isSome_iff_ne_none] using hn

/-- C5: for every input table whose label column exists, the asap, JLR and
quartets extractors never return a missing label: they abort with their
DataIntegrity assertion whenever some row's label-column value fails to
match their pattern, and on success return the table untouched and the
complete extracted series; the Didone extractor instead always succeeds,
mapping a captured "97" to "79" and filling every non-matching row with
the literal label "nd". -/
theorem spec_c5_label_extraction (df : DF) (lc : String) (li : Nat)
    (h : df.colIdx lc = some li) :
    (((df.rows.any fun row => (reExtract asapRE (rowStr row li)).isNone) = true →
        asap_label df lc = .error (.dataIntegrity "asap")) ∧
      ∀ dfo y, asap_label df lc = .ok (dfo, y) → dfo = df ∧
        y = (df.rows.map fun row => (row.1, reExtract asapRE (rowStr row li))) ∧
        ∀ e ∈ y, e.2.isSome = true) ∧
    (((df.rows.any fun row => (reExtract jlrRE (rowStr row li)).isNone) = true →
        jlr_label df lc = .error (.dataIntegrity "JLR")) ∧
      ∀ dfo y, jlr_label df lc = .ok (dfo, y) → dfo = df ∧
        y = (df.rows.map fun row => (row.1, reExtract jlrRE (rowStr row li))) ∧
        ∀ e ∈ y, e.2.isSome = true) ∧
    (((df.rows.any fun row => (reExtract quartetsRE (rowStr row li)).isNone) = true →
        quartets_label df lc = .error (.dataIntegrity "quartets")) ∧
      ∀ dfo y, quartets_label df lc = .ok (dfo, y) → dfo = df ∧
        y = (df.rows.map fun row => (row.1, reExtract quartetsRE (rowStr row li))) ∧
        ∀ e ∈ y, e.2.isSome = true) ∧
    didone_label df lc = .ok (df, df.rows.map fun row => (row.1,
      some (match reExtract didoneRE (rowStr row li) with
            | some c => if c = "97" then "79" else c
            | none => "nd"))) := by
  refine ⟨regexExtractorSpec asapRE "asap" asap_label (fun _ _ => rfl) df lc li h,
    regexExtractorSpec jlrRE "JLR" jlr_label (fun _ _ => rfl) df lc li h,
    regexExtractorSpec quartetsRE "quartets" quartets_label (fun _ _ => rfl) df lc li h,
    ?_⟩
  unfold didone_label
  rw [dfExtract_some didoneRE df lc li h]
  simp only [List.map_map]
  have hpt : ∀ row : Nat × List Cell,
      ((fun e => ((e.1, match e.2 with
            | none => some "nd"
            | some v => some v) : Nat × Option String)) ∘
        (fun e => ((e.1, if e.2 = some "97" then some "79" else e.2) : Nat × Option String)) ∘
        fun row => (row.1, reExtract didoneRE (rowStr row li))) row =
      (row.1, some (match reExtract didoneRE (rowStr row li) with
        | some c => if c = "97" then "79" else c
        | none => "nd")) := by
    intro row
    simp only [Function.comp]
    cases hre : reExtract didoneRE (rowStr row li) with
    | none => simp
    | some c =>
      by_cases hc : c = "97"
      · simp [hc]
      · simp [hc, Option.some.injEq]
  rw [List.map_congr_left fun row _ => hpt row]
  have hnone : ((df.rows.map fun row =>
      ((row.1, some (match reExtract didoneRE (rowStr row li) with
        | some c => if c = "97" then "79" else c
        | none => "nd")) : Nat × Option String)).any fun e => e.2.isNone) = false := by
    rw [list_any_map]
    simp
  rw [hnone]
  rfl

end ClaimC5

section ClaimC3

/-- The feature rows of `ewld_label` after its in-place normalization of the
label column (prefix strip and extension strip; no character replacement). -/
def ewldDfRows (path : String) (df : DF) (li : Nat) : List (Nat × List Cell) :=
  df.rows.map fun row => (row.1, row.2.set li (.str (ewldNormDf path (rowStr row li))))

/-- The feature rows `ewld_label` keeps: those whose normalized filename is
among the normalized genre-table paths. -/
def ewldKeptRows (path : String) (db : List (String × Option String))
    (df : DF) (li : Nat) : List (Nat × List Cell) :=
  (ewldDfRows path df li).filter fun row =>
    (ewldDbNorm db).any fun p => p.1 = rowStr row li

/-- The genre rows matched by kept feature rows, in path-sorted order. -/
def ewldMatchedDb (path : String) (db : List (String × Option String))
    (df : DF) (li : Nat) : List (String × Option String) :=
  (ewldDbNorm db).filter fun p =>
    (ewldKeptRows path db df li).any fun row => rowStr row li = p.1

/-- Projecting the path component out of the normalized genre table gives
back the key list. -/
theorem map_fst_key_pairs (keys : List String) (g : String → Option String) :
    (keys.map fun k => ((k, g k) : String × Option String)).map (fun p => p.1) =
      keys := by
  induction keys with
  | nil => rfl
  | cons k ks ih => simp only [List.map_cons, ih]

/-- When a duplicate-free list `A` is contained in a duplicate-free list
`B`, filtering `B` for membership in `A` yields as many elements as `A`. -/
theorem length_filter_mem_of_sub (A B : List String) (hA : A.Nodup)
    (hB : B.Nodup) (hsub : ∀ a ∈ A, a ∈ B) :
    (B.filter fun b => A.any fun a => a = b).length = A.length := by
  have hnf : (B.filter fun b => A.any fun a => a = b).Nodup := hB.filter _
  rw [← List.toFinset_card_of_nodup hnf, ← List.toFinset_card_of_nodup hA,
    List.toFinset_filter]
  congr 1
  have heq : Finset.filter (fun x => (A.any fun a => a = x) = true) B.toFinset =
      Finset.filter (fun x => x ∈ A.toFinset) B.toFinset := by
    apply Finset.filter_congr
    intro x _
    rw [List.any_eq_true]
    constructor
    · rintro ⟨a, ha, hax⟩
      rw [List.mem_toFinset]
      exact (of_decide_eq_true hax) ▸ ha
    · intro hx
      exact ⟨x, List.mem_toFinset.mp hx, by simp⟩
  rw [heq, Finset.filter_mem_eq_inter, Finset.inter_eq_right.mpr]
  intro a ha
  rw [List.mem_toFinset] at ha ⊢
  exact hsub a ha

/-- The matched genre rows are exactly as numerous as the kept feature rows
(needs duplicate-free normalized filenames). -/
theorem ewld_matched_length (path : String) (db : List (String × Option String))
    (df : DF) (li : Nat)
    (h2 : ((ewldDfRows path df li).map fun row => rowStr row li).Nodup) :
    (ewldMatchedDb path db df li).length = (ewldKeptRows path db df li).length := by
  have hdb3 : (ewldDbNorm db).map (fun p => p.1) = ewldDbKeys db :=
    map_fst_key_pairs _ _
  have hkeysnd : (ewldDbKeys db).Nodup :=
    ((List.perm_insertionSort _ _).nodup_iff).mpr (List.nodup_dedup _)
  have hkept : (ewldKeptRows path db df li).map (fun row => rowStr row li) =
      ((ewldDfRows path df li).map fun row => rowStr row li).filter
        fun a => (ewldDbNorm db).any fun p => p.1 = a := by
    unfold ewldKeptRows
    rw [List.filter_map]
    rfl
  have hanykeys : ∀ a : String, ((ewldDbNorm db).any fun p => p.1 = a) =
      ((ewldDbKeys db).any fun k => k = a) := by
    intro a
    unfold ewldDbNorm
    rw [list_any_map]
  have hm1 : (ewldMatchedDb path db df li).length =
      (((ewldDbNorm db).map fun p => p.1).filter
        fun k => (ewldKeptRows path db df li).any fun row => rowStr row li = k).length := by
    unfold ewldMatchedDb
    rw [List.filter_map, List.length_map]
    rfl
  have hany2 : ∀ k : String,
      ((ewldKeptRows path db df li).any fun row => rowStr row li = k) =
      (((ewldKeptRows path db df li).map fun row => rowStr row li).any
        fun a => a = k) := by
    intro k
    rw [list_any_map]
  have hAnodup : (((ewldDfRows path df li).map fun row => rowStr row li).filter
      fun a => (ewldDbNorm db).any fun p => p.1 = a).Nodup := h2.filter _
  rw [hm1, hdb3]
  calc ((ewldDbKeys db).filter fun k =>
          (ewldKeptRows path db df li).any fun row => rowStr row li = k).length
      = ((ewldDbKeys db).filter fun k =>
          ((ewldKeptRows path db df li).map fun row => rowStr row li).any
            fun a => a = k).length := by
        congr 1
        apply List.filter_congr
        intro k _
        exact hany2 k
    _ = ((ewldKeptRows path db df li).map fun row => rowStr row li).length := by
        apply length_filter_mem_of_sub
        · rw [hkept]
          exact hAnodup
        · exact hkeysnd
        · intro a ha
          rw [hkept] at ha
          have hin := (List.mem_filter.mp ha).2
          rw [hanykeys a] at hin
          obtain ⟨k, hk, hka⟩ := List.any_eq_true.mp hin
          exact (of_decide_eq_true hka) ▸ hk
    _ = (ewldKeptRows path db df li).length := List.length_map _ _

/-- `ewld_label` on a present label column, with the mask application spelt
as a row filter. -/
theorem ewld_label_eq (path : String) (db : List (String × Option String))
    (df : DF) (lc : String) (li : Nat) (h1 : df.colIdx lc = some li) :
    ewld_label path db df lc =
      (if ((ewldDbNorm db).filter fun p =>
            (maskFilter (ewldDfRows path df li)
              ((ewldDfRows path df li).map fun row =>
                (ewldDbNorm db).any fun q => q.1 = rowStr row li)).any
              fun row => rowStr row li = p.1).length =
          (maskFilter (ewldDfRows path df li)
            ((ewldDfRows path df li).map fun row =>
              (ewldDbNorm db).any fun q => q.1 = rowStr row li)).length then
        if (((maskFilter (ewldDfRows path df li)
              ((ewldDfRows path df li).map fun row =>
                (ewldDbNorm db).any fun q => q.1 = rowStr row li)).zip
            ((ewldDbNorm db).filter fun p =>
              (maskFilter (ewldDfRows path df li)
                ((ewldDfRows path df li).map fun row =>
                  (ewldDbNorm db).any fun q => q.1 = rowStr row li)).any
                fun row => rowStr row li = p.1)).map
            fun q => ((q.1.1, q.2.2) : Nat × Option String)).any
            (fun e => e.2.isNone) then
          throw (.dataIntegrity "EWLD")
        else
          .ok (⟨df.cols, maskFilter (ewldDfRows path df li)
              ((ewldDfRows path df li).map fun row =>
                (ewldDbNorm db).any fun q => q.1 = rowStr row li)⟩,
            ((maskFilter (ewldDfRows path df li)
              ((ewldDfRows path df li).map fun row =>
                (ewldDbNorm db).any fun q => q.1 = rowStr row li)).zip
            ((ewldDbNorm db).filter fun p =>
              (maskFilter (ewldDfRows path df li)
                ((ewldDfRows path df li).map fun row =>
                  (ewldDbNorm db).any fun q => q.1 = rowStr row li)).any
                fun row => rowStr row li = p.1)).map
            fun q => (q.1.1, q.2.2))
      else throw .valueError) := by
  unfold ewld_label
  rw [h1]
  rfl

/-- C3 (amended): `ewld_label` strips the dataset-root prefix and the
four-character extension from the feature table's filename column, but
applies the `","`/`";"`/`" "` replacement only to the genre table's path
column; it deduplicates genre paths keeping the first non-null genre per
(sorted) path, keeps exactly the feature rows whose normalized filename is
in the genre path set, and pairs the filtered table's rows positionally
with the matched genres taken in path-sorted order. -/
theorem spec_c3_amended (path : String) (db : List (String × Option String))
    (df : DF) (lc : String) (li : Nat)
    (h1 : df.colIdx lc = some li)
    (h2 : ((ewldDfRows path df li).map fun row => rowStr row li).Nodup)
    (h3 : ∀ p ∈ ewldDbNorm db, p.2.isSome = true) :
    ewld_label path db df lc = .ok
      (⟨df.cols, ewldKeptRows path db df li⟩,
        ((ewldKeptRows path db df li).zip (ewldMatchedDb path db df li)).map
          fun q => (q.1.1, q.2.2)) := by
  rw [ewld_label_eq path db df lc li h1, maskFilter_map_self]
  have hfold1 : (List.filter (fun row => (ewldDbNorm db).any
      fun q => q.1 = rowStr row li) (ewldDfRows path df li)) =
      ewldKeptRows path db df li := rfl
  rw [hfold1]
  have hfold2 : (List.filter (fun p => (ewldKeptRows path db df li).any
      fun row => rowStr row li = p.1) (ewldDbNorm db)) =
      ewldMatchedDb path db df li := rfl
  rw [hfold2]
  rw [if_pos (ewld_matched_length path db df li h2)]
  have hnone : (((ewldKeptRows path db df li).zip (ewldMatchedDb path db df li)).map
      (fun q => ((q.1.1, q.2.2) : Nat × Option String))).any
        (fun e => e.2.isNone) = false := by
    rw [list_any_map, List.any_eq_false]
    intro q hq
    have hmem := (List.of_mem_zip hq).2
    have hdb : q.2 ∈ ewldDbNorm db :=
      List.Sublist.mem hmem
        (show (ewldMatchedDb path db df li).Sublist (ewldDbNorm db) from
          List.filter_sublist _)
    obtain ⟨v, hv⟩ := Option.isSome_iff_exists.mp (h3 q.2 hdb)
    simp [hv]
  rw [hnone]
  rfl

/-- The one-row table of the C3 counterexample: its filename contains a
comma; the matching genre-table path does too. -/
def dfEwldC : DF := ⟨["F", "v"], [(0, [.str "datasets/EWLD/a,b.xml", .num 1])]⟩

/-- The genre table of the C3 counterexample. -/
def dbEwldC : List (String × Option String) := [("a,b.xml", some "Jazz")]

/-- C3 (counterexample): the claim says the `","`/`";"`/`" "` replacement is
applied on both sides of the join; the code applies it only to the genre
table's path column, so a filename whose normalized form contains a comma
never matches its own genre entry: `ewld_label` drops the row that the
claimed both-sides normalization (`ewld_label_claimed`) keeps. -/
theorem spec_c3_counterexample :
    ewld_label "datasets/EWLD" dbEwldC dfEwldC "F" =
      .ok (⟨["F", "v"], []⟩, []) ∧
    ewld_label_claimed "datasets/EWLD" dbEwldC dfEwldC "F" =
      .ok (⟨["F", "v"], [(0, [.str "a_b", .num 1])]⟩, [(0, some "Jazz")]) ∧
    ewld_label "datasets/EWLD" dbEwldC dfEwldC "F" ≠
      ewld_label_claimed "datasets/EWLD" dbEwldC dfEwldC "F" := by
  refine ⟨by rfl, by rfl, ?_⟩
  intro hcontra
  rw [show ewld_label "datasets/EWLD" dbEwldC dfEwldC "F" =
      .ok (⟨["F", "v"], []⟩, []) from rfl] at hcontra
  rw [show ewld_label_claimed "datasets/EWLD" dbEwldC dfEwldC "F" =
      .ok (⟨["F", "v"], [(0, [.str "a_b", .num 1])]⟩, [(0, some "Jazz")]) from rfl]
    at hcontra
  simp at hcontra

end ClaimC3

section ClaimC8

/-- C8: `Task.load_csv` is idempotent: once a load has succeeded, any later
call is a no-op — it reads nothing (the result does not depend on the
filesystem `fs'`, nor on the configuration) and returns the very same task
state, feature table included. -/
theorem spec_c8_load_idempotent (cfg : Config) (fs : String → Option DF)
    (t t' : STask) (h : t.load_csv cfg fs = .ok t') :
    t'.loaded = true ∧
    ∀ (cfg' : Config) (fs' : String → Option DF),
      t'.load_csv cfg' fs' = .ok t' := by
  have hl : t'.loaded = true := by
    unfold STask.load_csv at h
    by_cases ht : t.loaded
    · rw [if_pos ht] at h
      simp only [pure, Except.pure, Except.ok.injEq] at h
      rw [← h]
      exact ht
    · rw [if_neg ht] at h
      split at h
      · simp [throw, throwThe, MonadExceptOf.throw] at h
      · simp only [bind, Except.bind] at h
        split at h
        · simp at h
        · split at h
          · simp at h
          · split at h
            · simp at h
            · simp only [pure, Except.pure, Except.ok.injEq] at h
              rw [← h]
  refine ⟨hl, fun cfg' fs' => ?_⟩
  unfold STask.load_csv
  rw [if_pos hl]
  rfl

end ClaimC8

section ClaimC4

/-- Walking any roster that contains an unloaded task trips the
`"must be loaded before intersecting"` assertion. -/
theorem collectRows_err (roster : List STask) (t : STask)
    (h : ∃ k ∈ roster, k.loaded = false) :
    collectRows roster t = .error .notLoaded := by
  induction roster with
  | nil =>
    obtain ⟨k, hk, _⟩ := h
    cases hk
  | cons a rest ih =>
    by_cases ha : a.loaded = true
    · have hrest : ∃ k ∈ rest, k.loaded = false := by
        obtain ⟨k, hk, hkl⟩ := h
        cases hk with
        | head => rw [ha] at hkl; cases hkl
        | tail _ hmem => exact ⟨k, hmem, hkl⟩
      unfold collectRows
      rw [if_neg (by simp [ha])]
      by_cases hx : a.hasX = true
      · rw [if_neg (by simp [hx])]
        by_cases hfe : a.dataset.friendly_name = t.dataset.friendly_name ∧
            a.extension = t.extension
        · rw [if_pos hfe, ih hrest]
          rfl
        · rw [if_neg hfe]
          exact ih hrest
      · rw [if_pos (by simpa using hx)]
        exact ih hrest
    · unfold collectRows
      rw [if_pos (by simpa using ha)]
      rfl

/-- `Task.intersect` fails on any roster containing an unloaded task. -/
theorem intersect_err (t : STask) (roster : List STask)
    (h : ∃ k ∈ roster, k.loaded = false) :
    t.intersect roster = .error .notLoaded := by
  unfold STask.intersect
  by_cases ht : t.loaded = true
  · rw [if_neg (by simp [ht])]
    simp only [bind, Except.bind, pure, Except.pure]
    rw [collectRows_err roster t h]
  · rw [if_pos (by simpa using ht)]
    simp [bind, Except.bind, throw, throwThe, MonadExceptOf.throw]

/-- The intersection pass aborts as soon as the roster contains a task
whose CSV failed to load. -/
theorem intersectPass_err (roster : List STask)
    (h : ∃ t ∈ roster, t.loaded = false) :
    intersectPass roster = .error .notLoaded := by
  obtain ⟨t, ht, hl⟩ := h
  cases roster with
  | nil => cases ht
  | cons a rest =>
    unfold intersectPass
    have hrg : List.range (a :: rest).length =
        0 :: (List.range rest.length).map Nat.succ := by
      rw [List.length_cons, List.range_succ_eq_map]
    rw [hrg, List.foldlM_cons]
    have herr : STask.intersect a (a :: rest) = .error .notLoaded :=
      intersect_err _ _ ⟨t, ht, hl⟩
    simp [intersectStep, herr, bind, Except.bind]

/-- C4 (amended): a Task whose backing CSV is absent raises NotFound; the
batch loader catches it and loads the remaining Tasks of the batch; but the
subsequent intersection pass asserts that every roster Task is loaded, so
one missing CSV makes the whole intersection pass abort instead of
processing the remaining Tasks to completion. -/
theorem spec_c4_amended :
    (∀ (cfg : Config) (fs : String → Option DF) (t : STask),
        t.loaded = false → fs (t.get_csv_path cfg) = none →
        t.load_csv cfg fs = .error .notFound) ∧
    (∀ (cfg : Config) (fs : String → Option DF) (t : STask) (rest : List STask),
        t.load_csv cfg fs = .error .notFound →
        load_batch (STask.load_csv cfg fs) (t :: rest) =
          (t :: ·) <$> load_batch (STask.load_csv cfg fs) rest) ∧
    (∀ roster : List STask, (∃ t ∈ roster, t.loaded = false) →
        intersectPass roster = .error .notLoaded) := by
  refine ⟨?_, ?_, intersectPass_err⟩
  · intro cfg fs t hload hfs
    unfold STask.load_csv
    rw [if_neg (by simp [hload]), hfs]
    rfl
  · intro cfg fs t rest h
    unfold load_batch
    rw [h]
    cases rest with
    | nil => rfl
    | cons a as => simp [load_batch]

end ClaimC4

section Fixtures

/-- A concrete configuration for the witnesses: the `quartets` dataset root
resolves to `"root/quartets"`, PCA is off, the external music21 taxonomy is
empty. -/
def cfgW : Config :=
  { datasets := fun _ => "root/quartets", output := "features",
    keep_first_10_pc := false, pca10 := id, m21ids := fun _ => [] }

/-- A quartets-style Dataset value (its extractor is the real
`quartets_label`; `nsplits := none` keeps the witness tables small). -/
def dsQuartets : Dataset :=
  { name := "quartets", make_label := quartets_label, label_content := "Composer",
    extensions := [".mid", ".krn"], friendly_name := "quartets", nsplits := none }

/-- The `musif` FeatureSet of `feature_sets` (data.py:158). -/
def fsetMusif : FeatureSet :=
  { name := "musif", filename_col := "FileName", label_col_selector := "FileName",
    illegal_cols := ["Id", "WindowId"],
    accepted_exts := [".mid", ".xml", ".musicxml", ".mxl", ".krn"],
    csvname := "musif" }

/-- The `music21` FeatureSet of `feature_sets` (data.py:168). -/
def fsetMusic21 : FeatureSet :=
  { name := "music21", filename_col := "FileName_0", label_col_selector := "FileName_0",
    illegal_cols := [],
    accepted_exts := [".mid", ".xml", ".musicxml", ".mxl", ".krn"],
    csvname := "music21" }

/-- The musif CSV of the witness filesystem. -/
def dfMusifCsv : DF :=
  ⟨["Id", "WindowId", "FileName", "v"],
   [(0, [.num 0, .num 0, .str "root/quartets/Haydn/a.mid", .num 3]),
    (1, [.num 1, .num 0, .str "root/quartets/Mozart/b.mid", .num 4])]⟩

/-- The music21 CSV of the witness filesystem (one shared file `b.mid`,
one extra file `c.mid`). -/
def dfMusic21Csv : DF :=
  ⟨["FileName_0", "w"],
   [(0, [.str "root/quartets/Mozart/b.mid", .num 7]),
    (1, [.str "root/quartets/Beeth/c.mid", .num 8])]⟩

/-- The witness filesystem: two CSV files exist, every other path is
absent. -/
def fsW : String → Option DF := fun p =>
  if p = "features/quartets/musif-mid.csv" then some dfMusifCsv
  else if p = "features/quartets/music21-mid.csv" then some dfMusic21Csv
  else none

/-- An unloaded musif/quartets/.mid task. -/
def tMusif : STask :=
  { dataset := dsQuartets, feature_set := fsetMusif, extension := ".mid" }

/-- An unloaded music21/quartets/.mid task. -/
def tMusic21 : STask :=
  { dataset := dsQuartets, feature_set := fsetMusic21, extension := ".mid" }

/-- A task whose backing CSV does not exist on `fsW` (the `.krn` file). -/
def tMissing : STask :=
  { dataset := dsQuartets, feature_set := fsetMusic21, extension := ".krn" }

/-- The state `tMusif` reaches after a successful load on `fsW`. -/
def tMusifLoaded : STask :=
  { dataset := dsQuartets, feature_set := fsetMusif, extension := ".mid",
    loaded := true, hasX := true,
    x := ⟨["v"], [(0, [.num 3]), (1, [.num 4])]⟩,
    y := [(0, some "Haydn"), (1, some "Mozart")],
    filenames := [(0, "Haydn/a.mid"), (1, "Mozart/b.mid")] }

end Fixtures

section WitnessC2C3C4C8

/-- C2 witness: `load_tasks` evaluated on an empty dataset roster. -/
theorem spec_c2_witness : ([] : List ConcatTask) = [] ∧
    load_tasks cfgW fsW [] [] (fun _ _ a _ => a) 0 =
      (load_batch (STask.load_csv cfgW fsW) (mkTasks [] []) >>=
        intersectPass).map (fun r => (r, [])) :=
  spec_c2_load_tasks_no_concat cfgW fsW [] [] (fun _ _ a _ => a) 0 [] [] rfl

/-- C3 witness: the amended characterization evaluated on a one-row table
whose filename matches its genre entry. -/
def dfEwldW : DF := ⟨["F"], [(0, [.str "datasets/EWLD/ab.xml"])]⟩

/-- The witness genre table. -/
def dbEwldW : List (String × Option String) :=
  [("ab.xml", some "Pop"), ("zz.xml", some "Rock")]

/-- C3 witness. -/
theorem spec_c3_witness :
    ewld_label "datasets/EWLD" dbEwldW dfEwldW "F" = .ok
      (⟨dfEwldW.cols, ewldKeptRows "datasets/EWLD" dbEwldW dfEwldW 0⟩,
        ((ewldKeptRows "datasets/EWLD" dbEwldW dfEwldW 0).zip
          (ewldMatchedDb "datasets/EWLD" dbEwldW dfEwldW 0)).map
          fun q => (q.1.1, q.2.2)) :=
  spec_c3_amended "datasets/EWLD" dbEwldW dfEwldW "F" 0 (by rfl)
    (by rw [show ((ewldDfRows "datasets/EWLD" dfEwldW 0).map fun row => rowStr row 0) =
        ["ab"] from rfl]; decide)
    (by rw [show ewldDbNorm dbEwldW = [("ab", some "Pop"), ("zz", some "Rock")] from rfl]
        decide)

/-- C4 witness: the three amended clauses, instantiated on the concrete
batch `[tMissing, tMusif]` over the witness filesystem. -/
theorem spec_c4_witness :
    STask.load_csv cfgW fsW tMissing = .error .notFound ∧
    load_batch (STask.load_csv cfgW fsW) (tMissing :: [tMusif]) =
      (tMissing :: ·) <$> load_batch (STask.load_csv cfgW fsW) [tMusif] ∧
    intersectPass [tMissing, tMusifLoaded] = .error .notLoaded :=
  ⟨spec_c4_amended.1 cfgW fsW tMissing rfl rfl,
   spec_c4_amended.2.1 cfgW fsW tMissing [tMusif]
     (spec_c4_amended.1 cfgW fsW tMissing rfl rfl),
   spec_c4_amended.2.2 [tMissing, tMusifLoaded] ⟨tMissing, List.mem_cons_self _ _, rfl⟩⟩

/-- C8 witness: loading `tMusif` once and then again (over an empty
filesystem) returns the same state. -/
theorem spec_c8_witness :
    tMusifLoaded.loaded = true ∧
    tMusifLoaded.load_csv cfgW (fun _ => none) = .ok tMusifLoaded :=
  ⟨(spec_c8_load_idempotent cfgW fsW tMusif tMusifLoaded (by rfl)).1,
   (spec_c8_load_idempotent cfgW fsW tMusif tMusifLoaded (by rfl)).2 cfgW
     (fun _ => none)⟩

end WitnessC2C3C4C8

section MoreWitnesses

/-- The table for the C5 witness: one Didone-style filename (capturing
"97") and one filename matching no pattern. -/
def dfDidoneW : DF :=
  ⟨["F"], [(0, [.str "x/xml/Aria-1979-foo"]), (1, [.str "bad"])]⟩

/-- C5 witness: on `dfDidoneW` the asap extractor aborts with its
DataIntegrity assertion, while the Didone extractor succeeds, mapping the
captured "97" to "79" and the non-match to "nd". -/
theorem spec_c5_witness :
    asap_label dfDidoneW "F" = .error (.dataIntegrity "asap") ∧
    didone_label dfDidoneW "F" = .ok (dfDidoneW, dfDidoneW.rows.map fun row =>
      (row.1, some (match reExtract didoneRE (rowStr row 0) with
        | some c => if c = "97" then "79" else c
        | none => "nd"))) :=
  ⟨((spec_c5_label_extraction dfDidoneW "F" 0 rfl).1.1) (by decide),
   (spec_c5_label_extraction dfDidoneW "F" 0 rfl).2.2.2⟩

/-- C4 (counterexample): over the witness filesystem, the batch loader does
survive `tMissing`'s absent CSV and loads `tMusif`, but the subsequent
intersection pass hits the `"must be loaded before intersecting"` assertion
instead of processing the remaining Task to completion, contradicting the
claim that every remaining Task passes through both steps. -/
theorem spec_c4_counterexample :
    load_batch (STask.load_csv cfgW fsW) [tMissing, tMusif] =
      .ok [tMissing, tMusifLoaded] ∧
    tMissing.loaded = false ∧ tMusifLoaded.loaded = true ∧
    intersectPass [tMissing, tMusifLoaded] = .error .notLoaded :=
  ⟨rfl, rfl, rfl, rfl⟩

end MoreWitnesses

section ClaimC1

/-- The filename vectors `Task.intersect` collects for `t` from a fully
loaded roster: those of the tasks that have an `x` attribute and share
`t`'s dataset friendly name and extension. -/
def siblingFilenames (roster : List STask) (t : STask) : List SSeries :=
  (roster.filter fun k => k.hasX &&
    decide (k.dataset.friendly_name = t.dataset.friendly_name ∧
      k.extension = t.extension)).map fun k => k.filenames

/-- The state `Task.intersect` leaves `t` in on a fully loaded roster:
`x` and `y` masked down to the rows whose filename lies in every collected
sibling filename vector; the `filenames_` attribute untouched. -/
def restrictTask (roster : List STask) (t : STask) : STask :=
  { t with
    x := t.x.maskRows (t.filenames.map fun e =>
      (siblingFilenames roster t).all fun l => l.any fun e' => e'.2 = e.2)
    y := maskFilter t.y (t.filenames.map fun e =>
      (siblingFilenames roster t).all fun l => l.any fun e' => e'.2 = e.2) }

/-- The parts of a roster member's state that `Task.intersect` reads. -/
def taskObs (t : STask) : Bool × Bool × String × String × SSeries :=
  (t.loaded, t.hasX, t.dataset.friendly_name, t.extension, t.filenames)

/-- The intersection pass never changes what `Task.intersect` reads. -/
theorem taskObs_restrict (roster : List STask) (t : STask) :
    taskObs (restrictTask roster t) = taskObs t := rfl

/-- On a fully loaded roster the collection loop of `Task.intersect`
returns exactly the sibling filename vectors. -/
theorem collectRows_ok (roster : List STask) (t : STask)
    (h : ∀ k ∈ roster, k.loaded = true) :
    collectRows roster t = .ok (siblingFilenames roster t) := by
  induction roster with
  | nil => rfl
  | cons k rest ih =>
    have hk : k.loaded = true := h k (List.mem_cons_self _ _)
    have hrest := fun a ha => h a (List.mem_cons_of_mem _ ha)
    unfold collectRows
    rw [if_neg (by simp [hk])]
    by_cases hx : k.hasX = true
    · rw [if_neg (by simp [hx])]
      by_cases hfe : k.dataset.friendly_name = t.dataset.friendly_name ∧
          k.extension = t.extension
      · rw [if_pos hfe, ih hrest]
        unfold siblingFilenames
        rw [List.filter_cons, if_pos (by simp [hx, hfe])]
        rfl
      · rw [if_neg hfe, ih hrest]
        unfold siblingFilenames
        rw [List.filter_cons, if_neg (by simp [hfe])]
    · rw [if_pos (by simpa using hx), ih hrest]
      unfold siblingFilenames
      rw [List.filter_cons, if_neg (by simp [hx])]

/-- `siblingFilenames` only depends on the observable parts of the
roster. -/
theorem siblingFilenames_obs_eq (r r' : List STask) (t : STask)
    (h : r.map taskObs = r'.map taskObs) :
    siblingFilenames r t = siblingFilenames r' t := by
  induction r generalizing r' with
  | nil =>
    cases r' with
    | nil => rfl
    | cons b bs => simp at h
  | cons a as ih =>
    cases r' with
    | nil => simp at h
    | cons b bs =>
      simp only [List.map_cons, List.cons.injEq] at h
      obtain ⟨hab, hrest⟩ := h
      have h2 : a.hasX = b.hasX := congrArg (fun q => q.2.1) hab
      have h3 : a.dataset.friendly_name = b.dataset.friendly_name :=
        congrArg (fun q => q.2.2.1) hab
      have h4 : a.extension = b.extension := congrArg (fun q => q.2.2.2.1) hab
      have h5 : a.filenames = b.filenames := congrArg (fun q => q.2.2.2.2) hab
      have hih := ih bs hrest
      unfold siblingFilenames at hih ⊢
      rw [List.filter_cons, List.filter_cons, h2, h3, h4]
      by_cases hp : (b.hasX && decide (b.dataset.friendly_name =
          t.dataset.friendly_name ∧ b.extension = t.extension)) = true
      · rw [if_pos hp, if_pos hp]
        simp only [List.map_cons]
        rw [h5, hih]
      · rw [if_neg hp, if_neg hp]
        exact hih

/-- Loadedness transfers along observable equality of rosters. -/
theorem forall_loaded_of_obs_eq (r r' : List STask)
    (h : r.map taskObs = r'.map taskObs)
    (h' : ∀ k ∈ r', k.loaded = true) : ∀ k ∈ r, k.loaded = true := by
  intro k hk
  have hmem : taskObs k ∈ r'.map taskObs := by
    rw [← h]
    exact List.mem_map_of_mem _ hk
  obtain ⟨k', hk', he⟩ := List.mem_map.mp hmem
  have hlo : k'.loaded = k.loaded := congrArg (fun q => q.1) he
  rw [← hlo]
  exact h' k' hk'

/-- `Task.intersect` on a fully loaded roster containing `t` succeeds and
produces exactly the restricted state. -/
theorem intersect_ok (t : STask) (r : List STask)
    (hl : ∀ k ∈ r, k.loaded = true) (ht : t.loaded = true) (hx : t.hasX = true)
    (hmem : t ∈ r) :
    t.intersect r = .ok (restrictTask r t) := by
  have hsib : t.filenames ∈ siblingFilenames r t := by
    unfold siblingFilenames
    exact List.mem_map_of_mem _ (List.mem_filter.mpr ⟨hmem, by simp [hx]⟩)
  obtain ⟨l0, ls, hls⟩ : ∃ l0 ls, siblingFilenames r t = l0 :: ls := by
    cases hc : siblingFilenames r t with
    | nil => rw [hc] at hsib; cases hsib
    | cons l0 ls => exact ⟨l0, ls, rfl⟩
  unfold STask.intersect
  rw [if_neg (by simp [ht])]
  simp only [bind, Except.bind, pure, Except.pure]
  rw [collectRows_ok r t hl, hls]
  unfold restrictTask
  rw [hls]

/-- A helper: setting the element right after a prefix. -/
theorem set_append_length (a b : List α) (x : α) :
    (a ++ b).set a.length x = a ++ b.set 0 x := by
  induction a with
  | nil => rfl
  | cons y ys ih =>
    simp only [List.cons_append, List.length_cons, List.set_cons_succ, ih]

/-- `set_append_length` stated at any index equal to the prefix length. -/
theorem set_append_of_length (a b : List α) (x : α) (n : Nat)
    (h : a.length = n) : (a ++ b).set n x = a ++ b.set 0 x := by
  subst h
  exact set_append_length a b x

/-- The intersection pass, after `n` iterations, has replaced the first `n`
roster entries by their restrictions against the original roster (whose
observable parts never change). -/
theorem intersectPass_partial (roster : List STask)
    (h : ∀ t ∈ roster, t.loaded = true ∧ t.hasX = true) :
    ∀ n, n ≤ roster.length →
      (List.range n).foldlM intersectStep roster =
        .ok ((roster.take n).map (restrictTask roster) ++ roster.drop n) := by
  intro n
  induction n with
  | zero =>
    intro _
    rfl
  | succ n ih =>
    intro hn
    have hn' : n ≤ roster.length := Nat.le_of_succ_le hn
    have hnlt : n < roster.length := hn
    rw [List.range_succ, List.foldlM_append, ih hn']
    simp only [bind, Except.bind, List.foldlM_cons, List.foldlM_nil]
    set rn : List STask :=
      (roster.take n).map (restrictTask roster) ++ roster.drop n with hrn
    have hpreflen : ((roster.take n).map (restrictTask roster)).length = n := by
      simp [List.length_take, Nat.min_eq_left hn']
    have hobs : rn.map taskObs = roster.map taskObs := by
      rw [hrn, List.map_append, List.map_map]
      have hcomp : ((roster.take n).map
          (fun a => taskObs (restrictTask roster a))) =
          (roster.take n).map taskObs :=
        List.map_congr_left fun a _ => taskObs_restrict roster a
      calc (roster.take n).map (taskObs ∘ restrictTask roster) ++
            (roster.drop n).map taskObs
          = (roster.take n).map taskObs ++ (roster.drop n).map taskObs := by
            rw [show (roster.take n).map (taskObs ∘ restrictTask roster) =
              (roster.take n).map (fun a => taskObs (restrictTask roster a)) from rfl,
              hcomp]
        _ = roster.map taskObs := by rw [← List.map_append, List.take_append_drop]
    have hrnloaded : ∀ k ∈ rn, k.loaded = true :=
      forall_loaded_of_obs_eq rn roster hobs fun k hk => (h k hk).1
    have hget : rn[n]? = some roster[n] := by
      rw [hrn, List.getElem?_append_right (by rw [hpreflen])]
      rw [hpreflen, Nat.sub_self, List.getElem?_drop, Nat.add_zero]
      exact List.getElem?_eq_getElem hnlt
    have htmem : roster[n] ∈ roster := List.getElem_mem hnlt
    have htin : roster[n] ∈ rn := by
      rw [hrn]
      apply List.mem_append_right
      rw [List.drop_eq_getElem_cons hnlt]
      exact List.mem_cons_self _ _
    have hint : (roster[n]).intersect rn = .ok (restrictTask roster roster[n]) := by
      rw [intersect_ok roster[n] rn hrnloaded (h _ htmem).1 (h _ htmem).2 htin]
      rw [show restrictTask rn roster[n] = restrictTask roster roster[n] by
        unfold restrictTask
        rw [siblingFilenames_obs_eq rn roster roster[n] hobs]]
    unfold intersectStep
    rw [hget]
    simp only [bind, Except.bind, hint, pure, Except.pure]
    congr 1
    rw [hrn, set_append_of_length _ _ _ _ hpreflen]
    rw [List.drop_eq_getElem_cons hnlt, List.set_cons_zero]
    rw [List.take_succ, List.getElem?_eq_getElem hnlt]
    simp only [Option.toList_some, List.map_append, List.map_cons, List.map_nil]
    rw [List.append_assoc]
    rfl

/-- C1 (amended): after the intersection pass over a fully loaded roster,
each Task's feature table and label vector are restricted to exactly the
rows whose filename lies in every sibling filename vector (the tasks
sharing its dataset friendly name and extension, itself included); the
filename vectors themselves are NOT modified by the pass, so sibling
filename vectors need not end up set-equal. -/
theorem spec_c1_amended (roster : List STask)
    (h : ∀ t ∈ roster, t.loaded = true ∧ t.hasX = true ∧
      t.x.rows.length = t.filenames.length ∧ t.y.length = t.filenames.length) :
    intersectPass roster = .ok (roster.map (restrictTask roster)) ∧
    (∀ t ∈ roster, (restrictTask roster t).filenames = t.filenames) ∧
    (∀ t ∈ roster, (restrictTask roster t).x.rows =
      (t.x.rows.zip t.filenames).filterMap fun q =>
        if (siblingFilenames roster t).all fun l => l.any fun e' => e'.2 = q.2.2
        then some q.1 else none) ∧
    (∀ t ∈ roster, (restrictTask roster t).y =
      (t.y.zip t.filenames).filterMap fun q =>
        if (siblingFilenames roster t).all fun l => l.any fun e' => e'.2 = q.2.2
        then some q.1 else none) := by
  refine ⟨?_, fun t _ => rfl, ?_, ?_⟩
  · have hp := intersectPass_partial roster
      (fun t ht => ⟨(h t ht).1, (h t ht).2.1⟩) roster.length le_rfl
    unfold intersectPass
    rw [hp]
    simp
  · intro t ht
    exact maskFilter_zip_eq t.x.rows t.filenames
      (fun e => (siblingFilenames roster t).all fun l => l.any fun e' => e'.2 = e.2)
      (h t ht).2.2.1
  · intro t ht
    exact maskFilter_zip_eq t.y t.filenames
      (fun e => (siblingFilenames roster t).all fun l => l.any fun e' => e'.2 = e.2)
      (h t ht).2.2.2

end ClaimC1

section ClaimC1Concrete

/-- A loaded musif-style task with filenames {a, b}. -/
def tCexA : STask :=
  { dataset := dsQuartets, feature_set := fsetMusif, extension := ".mid",
    loaded := true, hasX := true,
    x := ⟨["a1"], [(0, [.num 1]), (1, [.num 2])]⟩,
    y := [(0, some "L1"), (1, some "L2")],
    filenames := [(0, "a"), (1, "b")] }

/-- A loaded music21-style sibling task with filenames {b, c}. -/
def tCexB : STask :=
  { dataset := dsQuartets, feature_set := fsetMusic21, extension := ".mid",
    loaded := true, hasX := true,
    x := ⟨["b1"], [(5, [.num 7]), (6, [.num 8])]⟩,
    y := [(5, some "L2"), (6, some "L3")],
    filenames := [(5, "b"), (6, "c")] }

/-- `tCexA` after the intersection pass: `x`/`y` restricted to filename
"b", `filenames_` untouched. -/
def tCexA' : STask :=
  { tCexA with x := ⟨["a1"], [(1, [.num 2])]⟩, y := [(1, some "L2")] }

/-- `tCexB` after the intersection pass. -/
def tCexB' : STask :=
  { tCexB with x := ⟨["b1"], [(5, [.num 7])]⟩, y := [(5, some "L2")] }

/-- C1 (counterexample): after the intersection pass over the roster
`[tCexA, tCexB]` — two loaded sibling tasks with filename sets {a, b} and
{b, c} — the feature tables are restricted to the common filename "b", but
the filename vectors are left untouched: "a" is still in `tCexA`'s vector
and not in `tCexB`'s, so the two sibling filename vectors are NOT
set-equal, contrary to the claim. -/
theorem spec_c1_counterexample :
    intersectPass [tCexA, tCexB] = .ok [tCexA', tCexB'] ∧
    tCexA'.filenames = [(0, "a"), (1, "b")] ∧
    tCexB'.filenames = [(5, "b"), (6, "c")] ∧
    "a" ∈ tCexA'.filenames.map (fun e => e.2) ∧
    "a" ∉ tCexB'.filenames.map (fun e => e.2) :=
  ⟨rfl, rfl, rfl, by decide, by decide⟩

/-- C1 witness: the amended statement instantiated on `[tCexA, tCexB]`. -/
theorem spec_c1_witness :
    intersectPass [tCexA, tCexB] =
      .ok ([tCexA, tCexB].map (restrictTask [tCexA, tCexB])) ∧
    (∀ t ∈ [tCexA, tCexB],
      (restrictTask [tCexA, tCexB] t).filenames = t.filenames) ∧
    (∀ t ∈ [tCexA, tCexB],
      (restrictTask [tCexA, tCexB] t).x.rows =
        (t.x.rows.zip t.filenames).filterMap fun q =>
          if (siblingFilenames [tCexA, tCexB] t).all fun l =>
              l.any fun e' => e'.2 = q.2.2
          then some q.1 else none) ∧
    (∀ t ∈ [tCexA, tCexB],
      (restrictTask [tCexA, tCexB] t).y =
        (t.y.zip t.filenames).filterMap fun q =>
          if (siblingFilenames [tCexA, tCexB] t).all fun l =>
              l.any fun e' => e'.2 = q.2.2
          then some q.1 else none) :=
  spec_c1_amended [tCexA, tCexB] (by decide)

end ClaimC1Concrete

section ClaimC7

/-- The index labels of a member in its filename-sorted order
(`task.filenames_.sort_values().index`). -/
def selIdx (t : STask) : List Nat :=
  (sortByVal t.filenames).map fun e => e.1

/-- `y[idx]` as a pure selection (assuming every label is found). -/
def selPairsY (y : LabSeries) (idx : List Nat) : LabSeries :=
  idx.filterMap fun i => y.find? fun e => e.1 = i

/-- `x.loc[idx]` as a pure selection (assuming every label is found). -/
def selRows (df : DF) (idx : List Nat) : List (Nat × List Cell) :=
  idx.filterMap fun i => df.rows.find? fun r => r.1 = i

/-- A member's label values in its filename-sorted order. -/
def selLabels (t : STask) : List (Option String) :=
  (selPairsY t.y (selIdx t)).map fun e => e.2

/-- A ConcatTask member in good standing: loaded, and every filename-sorted
index label present in its label vector and its feature table. -/
def memberReady (t : STask) : Prop :=
  t.loaded = true ∧
  (∀ i ∈ selIdx t, (t.y.any fun e => e.1 = i) = true) ∧
  (∀ i ∈ selIdx t, (t.x.rows.any fun r => r.1 = i) = true)

instance (t : STask) : Decidable (memberReady t) := by
  unfold memberReady
  infer_instance

/-- The first member's sorted index labels, restricted to those present in
every later member's sorted index labels (what the chain of inner concats
retains). -/
def commonSelIdx (t0 : STask) (rest : List STask) : List Nat :=
  rest.foldl (fun acc t => acc.filter fun i => (selIdx t).any fun j => j = i)
    (selIdx t0)

/-- A loaded task's `load_csv` is the identity. -/
theorem load_csv_of_loaded (cfg : Config) (fs : String → Option DF)
    (t : STask) (h : t.loaded = true) : t.load_csv cfg fs = .ok t := by
  unfold STask.load_csv
  rw [if_pos h]
  rfl

/-- `seriesSel` succeeds and returns the pure selection when every
requested label is present. -/
theorem seriesSel_ok (y : LabSeries) (idx : List Nat)
    (h : ∀ i ∈ idx, (y.any fun e => e.1 = i) = true) :
    seriesSel y idx = .ok (selPairsY y idx) := by
  induction idx with
  | nil => rfl
  | cons i idx ih =>
    have hi := h i (List.mem_cons_self _ _)
    obtain ⟨x, hx, hpx⟩ := List.any_eq_true.mp hi
    obtain ⟨e, he⟩ : ∃ e, (y.find? fun e => e.1 = i) = some e :=
      Option.isSome_iff_exists.mp (List.find?_isSome.mpr ⟨x, hx, hpx⟩)
    have hrest := ih fun j hj => h j (List.mem_cons_of_mem _ hj)
    unfold seriesSel at hrest ⊢
    rw [List.mapM_cons]
    simp only [bind, Except.bind, he, hrest, pure, Except.pure]
    unfold selPairsY
    rw [List.filterMap_cons, he]

/-- `DF.locRows` succeeds and returns the pure row selection when every
requested label is present. -/
theorem locRows_ok (df : DF) (idx : List Nat)
    (h : ∀ i ∈ idx, (df.rows.any fun r => r.1 = i) = true) :
    df.locRows idx = .ok ⟨df.cols, selRows df idx⟩ := by
  have hm : ∀ idx' : List Nat,
      (∀ i ∈ idx', (df.rows.any fun r => r.1 = i) = true) →
      (List.mapM (fun i => match df.rows.find? fun r => r.1 = i with
        | some r => (Except.ok r : Except SFError (Nat × List Cell))
        | none => throw SFError.keyError) idx') = .ok (selRows df idx') := by
    intro idx'
    induction idx' with
    | nil => intro _; rfl
    | cons i idx' ih =>
      intro h'
      have hi := h' i (List.mem_cons_self _ _)
      obtain ⟨x, hx, hpx⟩ := List.any_eq_true.mp hi
      obtain ⟨r, hr⟩ : ∃ r, (df.rows.find? fun r => r.1 = i) = some r :=
        Option.isSome_iff_exists.mp (List.find?_isSome.mpr ⟨x, hx, hpx⟩)
      have hrest := ih fun j hj => h' j (List.mem_cons_of_mem _ hj)
      rw [List.mapM_cons]
      simp only [pure, Except.pure] at hrest
      simp only [bind, Except.bind, hr, pure, Except.pure, hrest]
      unfold selRows
      rw [List.filterMap_cons, hr]
  unfold DF.locRows
  simp only [bind, Except.bind, pure, Except.pure]
  rw [hm idx h]

/-- The selected rows carry exactly the requested index labels. -/
theorem selRows_map_fst (df : DF) (idx : List Nat)
    (h : ∀ i ∈ idx, (df.rows.any fun r => r.1 = i) = true) :
    (selRows df idx).map (fun r => r.1) = idx := by
  induction idx with
  | nil => rfl
  | cons i idx ih =>
    have hi := h i (List.mem_cons_self _ _)
    obtain ⟨x, hx, hpx⟩ := List.any_eq_true.mp hi
    obtain ⟨r, hr⟩ : ∃ r, (df.rows.find? fun r => r.1 = i) = some r :=
      Option.isSome_iff_exists.mp (List.find?_isSome.mpr ⟨x, hx, hpx⟩)
    unfold selRows
    rw [List.filterMap_cons, hr]
    show r.1 :: (selRows df idx).map (fun r => r.1) = i :: idx
    have hp := List.find?_some hr
    have hri : r.1 = i := of_decide_eq_true hp
    rw [ih fun j hj => h j (List.mem_cons_of_mem _ hj), hri]

/-- The index labels surviving an inner concat: those of the left frame
present in the right frame. -/
theorem concatInner_rows_fst (a b : DF) :
    (concatInner a b).rows.map (fun r => r.1) =
      (a.rows.map fun r => r.1).filter fun i => b.rows.any fun rb => rb.1 = i := by
  unfold concatInner
  induction a.rows with
  | nil => rfl
  | cons r rs ih =>
    rw [List.filterMap_cons, List.map_cons, List.filter_cons]
    cases hf : b.rows.find? fun rb => rb.1 = r.1 with
    | none =>
      have hany : (b.rows.any fun rb => rb.1 = r.1) = false := by
        rw [List.any_eq_false]
        exact List.find?_eq_none.mp hf
      rw [hany]
      simp only [Bool.false_eq_true, if_false]
      exact ih
    | some rb =>
      have hp := List.find?_some hf
      have hany : (b.rows.any fun rb => rb.1 = r.1) = true :=
        List.any_eq_true.mpr ⟨rb, List.mem_of_find?_eq_some hf, hp⟩
      rw [hany, if_pos rfl]
      simp only [Option.map_some', List.map_cons]
      exact congrArg (r.1 :: ·) ih

end ClaimC7

section ClaimC7Main

/-- The member fold of `ConcatTask.load_csv` on ready, label-agreeing
members: it succeeds, appends every member's feature columns, and keeps
exactly the accumulator rows whose index label occurs in every member's
sorted index labels. -/
theorem concatFold_ok (cfg : Config) (fs : String → Option DF) (yv : LabSeries) :
    ∀ (rest : List STask) (xacc : DF) (rev : List STask),
    (∀ t ∈ rest, memberReady t) →
    (∀ t ∈ rest, selLabels t = yv.map fun e => e.2) →
    ∃ xfin rev',
      rest.foldlM (concatFoldStep cfg fs yv) (xacc, rev) = .ok (xfin, rev') ∧
      xfin.cols = xacc.cols ++ rest.flatMap (fun t => t.x.cols) ∧
      xfin.rows.map (fun r => r.1) =
        rest.foldl (fun acc t => acc.filter fun i => (selIdx t).any fun j => j = i)
          (xacc.rows.map fun r => r.1) := by
  intro rest
  induction rest with
  | nil =>
    intro xacc rev _ _
    exact ⟨xacc, rev, rfl, by simp, rfl⟩
  | cons t rest ih =>
    intro xacc rev hready heq
    have ht := hready t (List.mem_cons_self _ _)
    have hyk := seriesSel_ok t.y (selIdx t) ht.2.1
    have hxk := locRows_ok t.x (selIdx t) ht.2.2
    rw [List.foldlM_cons]
    have hstep : concatFoldStep cfg fs yv (xacc, rev) t =
        .ok (concatInner xacc ⟨t.x.cols, selRows t.x (selIdx t)⟩, t :: rev) := by
      unfold concatFoldStep
      rw [load_csv_of_loaded cfg fs t ht.1]
      simp only [bind, Except.bind, pure, Except.pure]
      rw [show ((sortByVal t.filenames).map fun e => e.1) = selIdx t from rfl]
      rw [hyk, hxk]
      dsimp only
      rw [if_pos (show (selPairsY t.y (selIdx t)).map (fun e => e.2) =
        yv.map (fun e => e.2) from heq t (List.mem_cons_self _ _))]
    simp only [bind, Except.bind, hstep]
    obtain ⟨xfin, rev', hfold, hcols, hrows⟩ :=
      ih (concatInner xacc ⟨t.x.cols, selRows t.x (selIdx t)⟩) (t :: rev)
        (fun a ha => hready a (List.mem_cons_of_mem _ ha))
        (fun a ha => heq a (List.mem_cons_of_mem _ ha))
    refine ⟨xfin, rev', hfold, ?_, ?_⟩
    · rw [hcols]
      show (xacc.cols ++ t.x.cols) ++ _ = _
      rw [List.append_assoc, List.flatMap_cons]
    · rw [hrows, List.foldl_cons]
      congr 1
      rw [concatInner_rows_fst]
      apply List.filter_congr
      intro i _
      have h1 : ((⟨t.x.cols, selRows t.x (selIdx t)⟩ : DF).rows.any
          fun rb => rb.1 = i) =
          (((selRows t.x (selIdx t)).map fun r => r.1).any fun j => j = i) := by
        rw [list_any_map]
      rw [h1, selRows_map_fst t.x (selIdx t) ht.2.2]

/-- The member fold aborts with the `"Labels must match"` assertion as soon
as a member's sorted label values differ from the first member's. -/
theorem concatFold_mismatch (cfg : Config) (fs : String → Option DF)
    (yv : LabSeries) :
    ∀ (rest : List STask) (xacc : DF) (rev : List STask),
    (∀ t ∈ rest, memberReady t) →
    (∃ t ∈ rest, selLabels t ≠ yv.map fun e => e.2) →
    rest.foldlM (concatFoldStep cfg fs yv) (xacc, rev) = .error .labelMismatch := by
  intro rest
  induction rest with
  | nil =>
    intro xacc rev _ h
    obtain ⟨a, ha, _⟩ := h
    cases ha
  | cons t rest ih =>
    intro xacc rev hready hex
    have ht := hready t (List.mem_cons_self _ _)
    have hyk := seriesSel_ok t.y (selIdx t) ht.2.1
    have hxk := locRows_ok t.x (selIdx t) ht.2.2
    rw [List.foldlM_cons]
    by_cases heq : selLabels t = yv.map fun e => e.2
    · have hstep : concatFoldStep cfg fs yv (xacc, rev) t =
          .ok (concatInner xacc ⟨t.x.cols, selRows t.x (selIdx t)⟩, t :: rev) := by
        unfold concatFoldStep
        rw [load_csv_of_loaded cfg fs t ht.1]
        simp only [bind, Except.bind, pure, Except.pure]
        rw [show ((sortByVal t.filenames).map fun e => e.1) = selIdx t from rfl]
        rw [hyk, hxk]
        dsimp only
        rw [if_pos (show (selPairsY t.y (selIdx t)).map (fun e => e.2) =
          yv.map (fun e => e.2) from heq)]
      simp only [bind, Except.bind, hstep]
      apply ih _ _ (fun a ha => hready a (List.mem_cons_of_mem _ ha))
      obtain ⟨a, ha, hne⟩ := hex
      cases ha with
      | head => exact (hne heq).elim
      | tail _ hmem => exact ⟨a, hmem, hne⟩
    · have hstep : concatFoldStep cfg fs yv (xacc, rev) t =
          .error .labelMismatch := by
        unfold concatFoldStep
        rw [load_csv_of_loaded cfg fs t ht.1]
        simp only [bind, Except.bind, pure, Except.pure]
        rw [show ((sortByVal t.filenames).map fun e => e.1) = selIdx t from rfl]
        rw [hyk, hxk]
        dsimp only
        rw [if_neg (show ¬ ((selPairsY t.y (selIdx t)).map (fun e => e.2) =
          yv.map (fun e => e.2)) from heq)]
        rfl
      simp only [bind, Except.bind, hstep]

/-- C7 (amended): for a ConcatTask whose members are loaded and whose
filename-sorted index labels are found in their own vectors, loading
concatenates the members' feature columns (column count = sum of the
members' column counts) and takes the first member's filename-sorted labels
as the shared label vector, failing with the LabelMismatch assertion when
any member's filename-sorted label values differ from the first member's;
but the rows are aligned by pandas index label (inner concat), not by
filename: the surviving rows are exactly the first member's sorted index
labels that occur in every other member's sorted index labels — equal to
the common row count only when the members share index labels. -/
theorem spec_c7_amended (cfg : Config) (fs : String → Option DF)
    (c : ConcatTask) (t0 : STask) (rest : List STask)
    (hc : c.loaded = false) (htasks : c.tasks = t0 :: rest)
    (h0 : memberReady t0) (hr : ∀ t ∈ rest, memberReady t) :
    ((∀ t ∈ rest, selLabels t = selLabels t0) →
      ∃ c', ConcatTask.load_csv cfg fs c = .ok c' ∧
        c'.loaded = true ∧
        c'.x.cols = t0.x.cols ++ rest.flatMap (fun t => t.x.cols) ∧
        c'.x.cols.length = ((t0 :: rest).map fun t => t.x.cols.length).sum ∧
        c'.x.rows.map (fun r => r.1) = commonSelIdx t0 rest ∧
        c'.y = selPairsY t0.y (selIdx t0) ∧
        c'.filenames = sortByVal t0.filenames) ∧
    ((∃ t ∈ rest, selLabels t ≠ selLabels t0) →
      ConcatTask.load_csv cfg fs c = .error .labelMismatch) := by
  have hload0 := load_csv_of_loaded cfg fs t0 h0.1
  have hy0 := seriesSel_ok t0.y (selIdx t0) h0.2.1
  have hx0 := locRows_ok t0.x (selIdx t0) h0.2.2
  have hred : ConcatTask.load_csv cfg fs c =
      (rest.foldlM (concatFoldStep cfg fs (selPairsY t0.y (selIdx t0)))
        (⟨t0.x.cols, selRows t0.x (selIdx t0)⟩, [])).bind
        fun p => .ok { c with
          tasks := (t0 :: p.2.reverse)
          loaded := true
          x := p.1
          y := selPairsY t0.y (selIdx t0)
          filenames := sortByVal t0.filenames } := by
    unfold ConcatTask.load_csv
    rw [if_neg (by simp [hc]), htasks]
    show (do
      let t0 ← t0.load_csv cfg fs
      let filenames := sortByVal t0.filenames
      let y ← seriesSel t0.y (filenames.map fun e => e.1)
      let x ← t0.x.locRows (filenames.map fun e => e.1)
      let (x, restRev) ← rest.foldlM (concatFoldStep cfg fs y) (x, [])
      return { c with
        tasks := (t0 :: restRev.reverse)
        loaded := true
        x := x
        y := y
        filenames := filenames } : Except SFError ConcatTask) = _
    simp only [bind, Except.bind, hload0]
    rw [show ((sortByVal t0.filenames).map fun e => e.1) = selIdx t0 from rfl]
    rw [hy0, hx0]
    dsimp only
    cases hf : rest.foldlM (concatFoldStep cfg fs (selPairsY t0.y (selIdx t0)))
        (⟨t0.x.cols, selRows t0.x (selIdx t0)⟩, []) with
    | error e => rfl
    | ok p => rfl
  constructor
  · intro hEq
    obtain ⟨xfin, rev', hfold, hcols, hrows⟩ :=
      concatFold_ok cfg fs (selPairsY t0.y (selIdx t0)) rest
        ⟨t0.x.cols, selRows t0.x (selIdx t0)⟩ [] hr
        (fun t htm => hEq t htm)
    refine ⟨_, by rw [hred, hfold]; rfl, rfl, ?_, ?_, ?_, rfl, rfl⟩
    · exact hcols
    · rw [hcols, List.length_append, List.length_flatMap, List.map_cons,
        List.sum_cons]
      rfl
    · rw [hrows]
      show _ = commonSelIdx t0 rest
      unfold commonSelIdx
      congr 1
      exact selRows_map_fst t0.x (selIdx t0) h0.2.2
  · intro hNe
    rw [hred, concatFold_mismatch cfg fs (selPairsY t0.y (selIdx t0)) rest
      ⟨t0.x.cols, selRows t0.x (selIdx t0)⟩ [] hr hNe]
    rfl

end ClaimC7Main

section ClaimC7Concrete

/-- First concat member: loaded, index labels 0/1, filenames f/g. -/
def cexC7A : STask :=
  { dataset := dsQuartets, feature_set := fsetMusif, extension := ".mid",
    loaded := true, hasX := true,
    x := ⟨["a1"], [(0, [.num 1]), (1, [.num 2])]⟩,
    y := [(0, some "L1"), (1, some "L2")],
    filenames := [(0, "f"), (1, "g")] }

/-- Second concat member: the same filenames f/g and the same
filename-sorted labels as `cexC7A`, but index labels 5/6. -/
def cexC7B : STask :=
  { dataset := dsQuartets, feature_set := fsetMusic21, extension := ".mid",
    loaded := true, hasX := true,
    x := ⟨["b1"], [(5, [.num 7]), (6, [.num 8])]⟩,
    y := [(5, some "L1"), (6, some "L2")],
    filenames := [(5, "f"), (6, "g")] }

/-- What loading `ConcatTask {tasks := [cexC7A, cexC7B]}` produces: the
inner concat aligns on index labels {0,1} vs {5,6}, so no row survives. -/
def cexC7Res : ConcatTask :=
  { tasks := [cexC7A, cexC7B], loaded := true,
    x := ⟨["a1", "b1"], []⟩,
    y := [(0, some "L1"), (1, some "L2")],
    filenames := [(0, "f"), (1, "g")] }

/-- C7 (counterexample): two loaded members that agree on filenames (f and
g, common filename row count 2) and on filename-sorted labels, and that the
intersection pass leaves unchanged, yet loading the ConcatTask yields a
feature table with 0 rows, not the common row count 2: `pd.concat(...,
join="inner")` aligns on the pandas index labels (0/1 vs 5/6), not on
filenames. -/
theorem spec_c7_counterexample :
    (cexC7A.filenames.map (fun e => e.2) = ["f", "g"] ∧
     cexC7B.filenames.map (fun e => e.2) = ["f", "g"]) ∧
    cexC7A.x.rows.length = 2 ∧ cexC7B.x.rows.length = 2 ∧
    selLabels cexC7B = selLabels cexC7A ∧
    intersectPass [cexC7A, cexC7B] = .ok [cexC7A, cexC7B] ∧
    ConcatTask.load_csv cfgW (fun _ => none) { tasks := [cexC7A, cexC7B] } =
      .ok cexC7Res ∧
    cexC7Res.x.rows.length = 0 :=
  ⟨⟨rfl, rfl⟩, rfl, rfl, rfl, rfl, rfl, rfl⟩

/-- A member sharing `cexC7A`'s index labels 0/1, so the inner concat keeps
both rows. -/
def cexC7C : STask :=
  { dataset := dsQuartets, feature_set := fsetMusic21, extension := ".mid",
    loaded := true, hasX := true,
    x := ⟨["b1"], [(0, [.num 7]), (1, [.num 8])]⟩,
    y := [(0, some "L1"), (1, some "L2")],
    filenames := [(0, "f"), (1, "g")] }

/-- C7 witness: the amended statement instantiated on the two-member
ConcatTask `[cexC7A, cexC7C]`, whose members share index labels 0/1. -/
theorem spec_c7_witness :
    ((∀ t ∈ ([cexC7C] : List STask), selLabels t = selLabels cexC7A) →
      ∃ c', ConcatTask.load_csv cfgW (fun _ => none)
          { tasks := [cexC7A, cexC7C] } = .ok c' ∧
        c'.loaded = true ∧
        c'.x.cols = cexC7A.x.cols ++ [cexC7C].flatMap (fun t => t.x.cols) ∧
        c'.x.cols.length =
          (([cexC7A, cexC7C] : List STask).map fun t => t.x.cols.length).sum ∧
        c'.x.rows.map (fun r => r.1) = commonSelIdx cexC7A [cexC7C] ∧
        c'.y = selPairsY cexC7A.y (selIdx cexC7A) ∧
        c'.filenames = sortByVal cexC7A.filenames) ∧
    ((∃ t ∈ ([cexC7C] : List STask), selLabels t ≠ selLabels cexC7A) →
      ConcatTask.load_csv cfgW (fun _ => none) { tasks := [cexC7A, cexC7C] } =
        .error .labelMismatch) :=
  spec_c7_amended cfgW (fun _ => none) { tasks := [cexC7A, cexC7C] }
    cexC7A [cexC7C] rfl rfl (by decide) (by decide)

end ClaimC7Concrete
